import Mathlib

/-!
Shallow embedding of the f3nearme beatdown synchronization core:
the record normalizer, the two document-id derivation schemes, the
tolerant change detector, the bulk reconciliation passes of the import
script and of the scheduled Cloud Function, and the webhook-scoped
update paths.  JavaScript strings are modelled as Lean strings
(null and undefined collapse to the empty string, which is the only
falsy string value the code distinguishes), JavaScript integer-valued
numbers as naturals, and floating-point coordinates as rationals,
with the transcendental distance computation carried out over the
real numbers.
-/

namespace F3

/-- Decimal digit character, as produced by JavaScript number-to-string
conversion for a single digit.  Values outside 0..9 never arise in the
uses below. -/
def digitChar (d : ℕ) : Char :=
  match d with
  | 0 => '0' | 1 => '1' | 2 => '2' | 3 => '3' | 4 => '4'
  | 5 => '5' | 6 => '6' | 7 => '7' | 8 => '8' | 9 => '9'
  | _ => '*'

/-- Fuel-driven most-significant-first decimal digit accumulation. -/
def toDigitsAux : ℕ → ℕ → List Char → List Char
  | 0, _, acc => acc
  | fuel + 1, n, acc =>
    if n < 10 then digitChar n :: acc
    else toDigitsAux fuel (n / 10) (digitChar (n % 10) :: acc)

/-- Decimal representation of a natural number, modelling the JavaScript
template interpolation of a nonnegative integer id. -/
def natRepr (n : ℕ) : List Char := toDigitsAux (n + 1) n []

/-- String form of the decimal representation. -/
def natStr (n : ℕ) : String := String.mk (natRepr n)

/-- Characters kept unchanged by the id sanitizer: the regex class
of lowercase letters, digits and the hyphen. -/
def isIdChar (c : Char) : Bool :=
  (('a' ≤ c && c ≤ 'z') || ('0' ≤ c && c ≤ '9')) || c = '-'

/-- Replacement of a single character outside the allowed class by a
hyphen, the per-character action of replace(/[^a-z0-9-]/g, '-'). -/
def sanChar (c : Char) : Char := if isIdChar c then c else '-'

/-- Collapse of every maximal run of hyphens to a single hyphen,
the action of the hyphen-run replacement regex.  The flag records
whether the previously emitted character was a hyphen. -/
def collapseAux : Bool → List Char → List Char
  | _, [] => []
  | prevHyp, c :: rest =>
    if c = '-' then
      if prevHyp then collapseAux true rest
      else '-' :: collapseAux true rest
    else c :: collapseAux false rest

/-- Removal of one leading hyphen, half of the edge-hyphen strip
regex; the anchored patterns each match at most once. -/
def stripLead : List Char → List Char
  | [] => []
  | c :: rest => if c = '-' then rest else c :: rest

/-- Removal of one trailing hyphen, the other half of the edge strip. -/
def stripTrail (l : List Char) : List Char := (stripLead l.reverse).reverse

/-- Combined extra normalization pass of the current id scheme:
collapse hyphen runs, then strip one leading and one trailing hyphen. -/
def collapseStrip (l : List Char) : List Char :=
  stripTrail (stripLead (collapseAux false l))

/-- Lowercasing followed by the character sanitizer, applied to the
character list of the concatenated base string. -/
def lowerSan (l : List Char) : List Char := (l.map Char.toLower).map sanChar

/-! The data model: upstream entities and the flattened beatdown. -/

structure ApiRegion where
  regionId : ℕ
  regionName : String
deriving DecidableEq

structure ApiEventType where
  eventTypeId : ℕ
  eventTypeName : String
deriving DecidableEq

/-- Upstream event entity.  Nullable string fields are modelled as
strings with the empty string standing for null or undefined, the only
distinction the consuming code makes. -/
structure ApiEvent where
  id : ℕ
  name : String
  description : String
  isActive : Bool
  locationId : ℕ
  dayOfWeek : String
  startTime : String
  endTime : String
  locationName : String
  locationAddress : String
  locationAddress2 : String
  locationCity : String
  locationState : String
  locationZip : String
  regions : List ApiRegion
  location : String
  eventTypes : List ApiEventType
deriving DecidableEq

/-- Upstream location entity. -/
structure ApiLocation where
  id : ℕ
  locationName : String
  description : String
  isActive : Bool
  regionName : String
  latitude : ℚ
  longitude : ℚ
  addressStreet : String
  addressStreet2 : String
  addressCity : String
  addressState : String
  addressZip : String
deriving DecidableEq

/-- Canonical flattened workout record. -/
structure Beatdown where
  dayOfWeek : String
  timeString : String
  type : String
  region : String
  website : String
  notes : String
  name : String
  address : String
  lat : ℚ
  long : ℚ
  locationId : ℕ
  eventId : ℕ
deriving DecidableEq

/-- JavaScript disjunction on strings: the left operand unless it is
falsy, that is, empty. -/
def jsOr (a b : String) : String := if a = "" then b else a

/-- Leading-digit parse modelling parseInt on the digit strings the
time formatter feeds it. -/
def parseNatPrefix (l : List Char) : Option ℕ :=
  match l.takeWhile Char.isDigit with
  | [] => none
  | ds => some (ds.foldl (fun a c => 10 * a + (c.toNat - 48)) 0)

/-- Left pad with zeros to four characters, modelling padStart(4, '0'). -/
def padStart4 (s : String) : String :=
  if 4 ≤ s.data.length then s
  else String.mk (List.replicate (4 - s.data.length) '0' ++ s.data)

/-- Format a military HHMM time string as h:mm am or pm; an absent
time yields the empty string. -/
def formatTime (militaryTime : String) : String :=
  if militaryTime = "" then ""
  else
    let padded := padStart4 militaryTime
    let hours := (parseNatPrefix (padded.data.take 2)).getD 0
    let minutes := String.mk (padded.data.drop 2)
    let period := if 12 ≤ hours then "pm" else "am"
    let displayHours := if hours % 12 = 0 then 12 else hours % 12
    natStr displayHours ++ ":" ++ minutes ++ " " ++ period

/-- Join of the nonblank address parts with comma separators,
modelling filter(Boolean).join(', '). -/
def joinParts (l : List String) : String :=
  String.intercalate ", " (l.filter (fun s => s ≠ ""))

/-- Region name preference: first entry of the event region list,
else the location region, else the literal fallback. -/
def regionOf (event : ApiEvent) (location : ApiLocation) : String :=
  jsOr ((event.regions.head?.map ApiRegion.regionName).getD "")
    (jsOr location.regionName "Unknown Region")

/-- Address preference: the event's composed address string, else the
event's own parts, else the location's parts. -/
def addressOf (event : ApiEvent) (location : ApiLocation) : String :=
  jsOr event.location
    (jsOr (joinParts [event.locationAddress, event.locationAddress2,
        event.locationCity, event.locationState, event.locationZip])
      (joinParts [location.addressStreet, location.addressStreet2,
        location.addressCity, location.addressState, location.addressZip]))

/-- Event type name: first entry of the event type list, else Unknown. -/
def typeOf (event : ApiEvent) : String :=
  jsOr ((event.eventTypes.head?.map ApiEventType.eventTypeName).getD "") "Unknown"

/-- Record normalizer of the import script: transformEventToBeatdown. -/
def transformEventToBeatdown (event : ApiEvent) (location : ApiLocation) : Beatdown :=
  { dayOfWeek := event.dayOfWeek
    timeString := formatTime event.startTime ++ " - " ++ formatTime event.endTime
    type := typeOf event
    region := regionOf event location
    website := ""
    notes := jsOr event.description ""
    name := jsOr event.name (jsOr event.locationName (jsOr location.locationName ""))
    address := addressOf event location
    lat := location.latitude
    long := location.longitude
    locationId := event.locationId
    eventId := event.id }

/-- Record normalizer of the Cloud Functions module: transformToBeatdown.
It differs from the script only in the notes fallback to the location
description. -/
def transformToBeatdown (location : ApiLocation) (event : ApiEvent) : Beatdown :=
  { dayOfWeek := event.dayOfWeek
    timeString := formatTime event.startTime ++ " - " ++ formatTime event.endTime
    type := typeOf event
    region := regionOf event location
    website := ""
    notes := jsOr event.description (jsOr location.description "")
    name := jsOr event.name (jsOr event.locationName (jsOr location.locationName ""))
    address := addressOf event location
    lat := location.latitude
    long := location.longitude
    locationId := event.locationId
    eventId := event.id }

/-- Current-scheme document id: region, name, day and event id joined
by underscores, lowercased, characters outside the allowed class
replaced by hyphens, hyphen runs collapsed and one leading and one
trailing hyphen stripped. -/
def generateBeatdownId (beatdown : Beatdown) : String :=
  String.mk (collapseStrip (lowerSan
    (beatdown.region ++ "_" ++ beatdown.name ++ "_" ++ beatdown.dayOfWeek
      ++ "_" ++ natStr beatdown.eventId).data))

/-- Legacy-scheme document id: region, name and day joined by
underscores, lowercased, characters outside the allowed class replaced
by hyphens, with no collapsing or stripping pass. -/
def generateOldBeatdownId (beatdown : Beatdown) : String :=
  String.mk (lowerSan
    (beatdown.region ++ "_" ++ beatdown.name ++ "_" ++ beatdown.dayOfWeek).data)

/-! The change detector. The source's normalizeValue dispatches on the
runtime type of its argument; in the typed embedding this becomes one
function per type. -/

/-- Whitespace trim from both ends of a character list, modelling the
JavaScript string trim. -/
def trimChars (l : List Char) : List Char :=
  (((l.dropWhile Char.isWhitespace).reverse).dropWhile Char.isWhitespace).reverse

/-- String half of normalizeValue: stringify and trim; null and
undefined are already the empty string in the embedding. -/
def normalizeValueStr (s : String) : String := String.mk (trimChars s.data)

/-- Numeric half of normalizeValue: integer-valued numbers are kept,
other numbers are rounded to five decimal places.  Over exact
rationals the integer branch agrees with the rounding branch. -/
def normalizeValueNum (q : ℚ) : ℚ :=
  if q.den = 1 then q else (round (q * 100000) : ℤ) / 100000

/-- Planar approximate distance in meters between two coordinate
pairs, scaled by 111000 meters per degree of latitude and by
111000 times the cosine of the mean latitude per degree of longitude,
combined by Pythagoras. -/
noncomputable def planarDistance (lat1 long1 lat2 long2 : ℚ) : ℝ :=
  let latDiff := |(lat1 : ℝ) - (lat2 : ℝ)| * 111000
  let longDiff := |(long1 : ℝ) - (long2 : ℝ)| * 111000 *
    Real.cos (((lat1 : ℝ) + (lat2 : ℝ)) / 2 * Real.pi / 180)
  Real.sqrt (latDiff * latDiff + longDiff * longDiff)

/-- Tolerant coordinate comparison: equal after rounding to five
decimals, or closer than ten meters by the planar approximation.
The early-return structure of the source is equivalently a
disjunction. -/
def coordinatesAreEqual (lat1 long1 lat2 long2 : ℚ) : Prop :=
  (normalizeValueNum lat1 = normalizeValueNum lat2 ∧
    normalizeValueNum long1 = normalizeValueNum long2) ∨
  planarDistance lat1 long1 lat2 long2 < 10

/-- Field-by-field record equivalence over the user-visible fields;
locationId and eventId are intentionally not compared. -/
def beatdownsAreEqual (bd1 bd2 : Beatdown) : Prop :=
  normalizeValueStr bd1.dayOfWeek = normalizeValueStr bd2.dayOfWeek ∧
  normalizeValueStr bd1.timeString = normalizeValueStr bd2.timeString ∧
  normalizeValueStr bd1.type = normalizeValueStr bd2.type ∧
  normalizeValueStr bd1.region = normalizeValueStr bd2.region ∧
  normalizeValueStr bd1.website = normalizeValueStr bd2.website ∧
  normalizeValueStr bd1.notes = normalizeValueStr bd2.notes ∧
  normalizeValueStr bd1.name = normalizeValueStr bd2.name ∧
  normalizeValueStr bd1.address = normalizeValueStr bd2.address ∧
  coordinatesAreEqual bd1.lat bd1.long bd2.lat bd2.long

/-! Reconciliation pass of the bulk import script, the variant with the
legacy-id migration path.  Stored documents are read as plain beatdown
records; the script consults no bookkeeping fields. -/

/-- Association-list lookup over a document snapshot, first match by
document id. -/
def lookupBd (m : List (String × Beatdown)) (k : String) : Option Beatdown :=
  (m.find? (fun p => p.1 = k)).map (fun p => p.2)

/-- Accumulated outcome of the script's comparison loop. -/
structure ScriptAcc where
  processedIds : List String
  toWrite : List Beatdown
  newCount : ℕ
  updCount : ℕ
  skipCount : ℕ
  migrated : ℕ
deriving DecidableEq

/-- Initial accumulator of the script loop. -/
def ScriptAcc.init : ScriptAcc := ⟨[], [], 0, 0, 0, 0⟩

open Classical in
/-- Body of the script's per-beatdown loop: derive the current id,
record it as processed, match by current id and then by legacy id with
the same-event migration and collision branches, and classify as
insert, update or unchanged. -/
noncomputable def scriptStep (existing : List (String × Beatdown))
    (acc : ScriptAcc) (bd : Beatdown) : ScriptAcc :=
  let docId := generateBeatdownId bd
  let acc1 := { acc with processedIds := acc.processedIds ++ [docId] }
  match lookupBd existing docId with
  | some ex =>
    if beatdownsAreEqual ex bd then
      { acc1 with skipCount := acc1.skipCount + 1 }
    else
      { acc1 with toWrite := acc1.toWrite ++ [bd], updCount := acc1.updCount + 1 }
  | none =>
    let oldDocId := generateOldBeatdownId bd
    match lookupBd existing oldDocId with
    | some oldBd =>
      if oldBd.eventId = bd.eventId then
        { acc1 with processedIds := acc1.processedIds ++ [oldDocId],
                    toWrite := acc1.toWrite ++ [bd],
                    updCount := acc1.updCount + 1,
                    migrated := acc1.migrated + 1 }
      else
        { acc1 with toWrite := acc1.toWrite ++ [bd], newCount := acc1.newCount + 1 }
    | none =>
      { acc1 with toWrite := acc1.toWrite ++ [bd], newCount := acc1.newCount + 1 }

/-- Whole comparison loop of the script over the freshly normalized
records. -/
noncomputable def scriptSync (existing : List (String × Beatdown))
    (bds : List Beatdown) : ScriptAcc :=
  bds.foldl (scriptStep existing) ScriptAcc.init

/-- Cleanup candidate set of the script: every stored id not recorded
as processed. -/
noncomputable def scriptDeletes (existing : List (String × Beatdown))
    (bds : List Beatdown) : List String :=
  (existing.map (fun p => p.1)).filter
    (fun id => id ∉ (scriptSync existing bds).processedIds)

/-- Document ids targeted by the script's writes; each queued beatdown
is written under its current-scheme id. -/
noncomputable def scriptWriteTargets (existing : List (String × Beatdown))
    (bds : List Beatdown) : List String :=
  ((scriptSync existing bds).toWrite).map generateBeatdownId

/-! Reconciliation pass of the scheduled Cloud Function,
syncAllBeatdowns: current-id matching only, a lastUpdated backfill
branch, merge writes and soft deletion. -/

/-- Stored Firestore document as the function reads and writes it:
the record fields plus presence of the lastUpdated timestamp, the
deleted flag and presence of the deletedAt timestamp. -/
structure StoredDoc where
  bd : Beatdown
  lastUpdated : Bool
  deleted : Bool
  deletedAt : Bool
deriving DecidableEq

/-- Association-list lookup over a stored snapshot. -/
def lookupStore (s : List (String × StoredDoc)) (k : String) : Option StoredDoc :=
  (s.find? (fun p => p.1 = k)).map (fun p => p.2)

/-- Accumulated outcome of the function's comparison loop. -/
structure SyncAcc where
  processedIds : List String
  toWrite : List Beatdown
  newCount : ℕ
  updCount : ℕ
  skipCount : ℕ
deriving DecidableEq

/-- Initial accumulator of the function loop. -/
def SyncAcc.init : SyncAcc := ⟨[], [], 0, 0, 0⟩

open Classical in
/-- Body of the function's per-beatdown loop: match by current id
only; classify as new, changed, lastUpdated backfill, or unchanged. -/
noncomputable def syncStep (existing : List (String × StoredDoc))
    (acc : SyncAcc) (bd : Beatdown) : SyncAcc :=
  let docId := generateBeatdownId bd
  let acc1 := { acc with processedIds := acc.processedIds ++ [docId] }
  match lookupStore existing docId with
  | none =>
    { acc1 with toWrite := acc1.toWrite ++ [bd], newCount := acc1.newCount + 1 }
  | some ex =>
    if beatdownsAreEqual ex.bd bd then
      if ex.lastUpdated then
        { acc1 with skipCount := acc1.skipCount + 1 }
      else
        { acc1 with toWrite := acc1.toWrite ++ [bd], updCount := acc1.updCount + 1 }
    else
      { acc1 with toWrite := acc1.toWrite ++ [bd], updCount := acc1.updCount + 1 }

/-- Whole comparison loop of the function. -/
noncomputable def syncScan (existing : List (String × StoredDoc))
    (bds : List Beatdown) : SyncAcc :=
  bds.foldl (syncStep existing) SyncAcc.init

/-- Soft-delete candidate set: stored ids not processed this pass. -/
noncomputable def syncDeleteSet (existing : List (String × StoredDoc))
    (bds : List Beatdown) : List String :=
  (existing.map (fun p => p.1)).filter
    (fun id => id ∉ (syncScan existing bds).processedIds)

/-- Merge write of one beatdown under its id: an existing document
keeps its other fields, in particular the deleted flag and deletedAt;
a fresh document starts undeleted.  lastUpdated is set either way. -/
def setMerge (s : List (String × StoredDoc)) (k : String) (bd : Beatdown) :
    List (String × StoredDoc) :=
  if (s.find? (fun p => p.1 = k)).isSome then
    s.map (fun p => if p.1 = k then
      (p.1, { p.2 with bd := bd, lastUpdated := true }) else p)
  else
    s ++ [(k, ⟨bd, true, false, false⟩)]

/-- Effect of the soft-delete update on one document: set the deleted
flag, deletedAt and lastUpdated, keeping the record fields. -/
def softDeleteDoc (d : StoredDoc) : StoredDoc :=
  { d with deleted := true, deletedAt := true, lastUpdated := true }

/-- Soft deletion of one document id across the snapshot. -/
def markDeleted (s : List (String × StoredDoc)) (k : String) :
    List (String × StoredDoc) :=
  s.map (fun p => if p.1 = k then (p.1, softDeleteDoc p.2) else p)

/-- Sequential application of the queued merge writes, each beatdown
written under its current-scheme id. -/
def applyWrites (s : List (String × StoredDoc)) (ws : List Beatdown) :
    List (String × StoredDoc) :=
  ws.foldl (fun s bd => setMerge s (generateBeatdownId bd) bd) s

/-- Sequential application of the soft deletions. -/
def applyDeletes (s : List (String × StoredDoc)) (ds : List String) :
    List (String × StoredDoc) :=
  ds.foldl markDeleted s

/-- Result of one merge write as seen at its own id: an existing
document keeps its deleted bookkeeping, a fresh one starts clean. -/
def mergeDoc (o : Option StoredDoc) (bd : Beatdown) : StoredDoc :=
  match o with
  | some d => { d with bd := bd, lastUpdated := true }
  | none => ⟨bd, true, false, false⟩

/-- One full pass of syncAllBeatdowns over an already-normalized fresh
record list: apply the queued merge writes, then soft-delete the
cleanup candidates. -/
noncomputable def syncApplyCore (existing : List (String × StoredDoc))
    (bds : List Beatdown) : List (String × StoredDoc) :=
  applyDeletes (applyWrites existing (syncScan existing bds).toWrite)
    (syncDeleteSet existing bds)

/-- Location lookup built from the bulk location response; a repeated
id keeps the last entry, as repeated map set calls do. -/
def locFind (locs : List ApiLocation) (i : ℕ) : Option ApiLocation :=
  locs.reverse.find? (fun l => l.id = i)

/-- Normalization of the full event feed: events whose location is
missing from the bulk fetch are skipped. -/
def toBeatdowns (events : List ApiEvent) (locs : List ApiLocation) : List Beatdown :=
  events.filterMap (fun e => (locFind locs e.locationId).map
    (fun l => transformToBeatdown l e))

/-- Comparison outcome of one scheduled pass from the raw feeds. -/
noncomputable def syncOutcome (stored : List (String × StoredDoc))
    (events : List ApiEvent) (locs : List ApiLocation) : SyncAcc :=
  syncScan stored (toBeatdowns events locs)

/-- Soft-delete set of one scheduled pass from the raw feeds. -/
noncomputable def syncDeletes (stored : List (String × StoredDoc))
    (events : List ApiEvent) (locs : List ApiLocation) : List String :=
  syncDeleteSet stored (toBeatdowns events locs)

/-- Stored state after one scheduled pass from the raw feeds. -/
noncomputable def syncFinal (stored : List (String × StoredDoc))
    (events : List ApiEvent) (locs : List ApiLocation) :
    List (String × StoredDoc) :=
  syncApplyCore stored (toBeatdowns events locs)

/-! Webhook-scoped update paths of the Cloud Functions module. -/

/-- Merge writes performed by updateLocationBeatdowns for one
location: every event of the fetched feed referencing the location,
normalized and keyed by its current-scheme id. -/
def updateLocationWrites (loc : ApiLocation) (events : List ApiEvent)
    (locationId : ℕ) : List (String × Beatdown) :=
  (events.filter (fun e => e.locationId = locationId)).map
    (fun e => (generateBeatdownId (transformToBeatdown loc e), transformToBeatdown loc e))

/-- Soft deletions performed by updateLocationBeatdowns: documents
returned by the query on the stored locationId field whose ids are not
among the ids being saved. -/
def updateLocationDeletes (store : List (String × StoredDoc))
    (loc : ApiLocation) (events : List ApiEvent) (locationId : ℕ) : List String :=
  let toSaveIds := (updateLocationWrites loc events locationId).map (fun p => p.1)
  ((store.filter (fun p => p.2.bd.locationId = locationId)).map (fun p => p.1)).filter
    (fun id => id ∉ toSaveIds)

/-- Outcome of updateEventBeatdown for one event id, given the fetched
event and the fetched location of the stored record: the merge writes
and the soft-delete targets.  With no stored record for the event id
nothing happens; an inactive event soft-deletes every stored record of
that event id; an active event is rewritten under its derived id, with
the recomputed id of the previously stored record soft-deleted when it
differs. -/
def updateEventOutcome (store : List (String × StoredDoc)) (eventId : ℕ)
    (event : ApiEvent) (loc : ApiLocation) :
    List (String × Beatdown) × List String :=
  match store.find? (fun p => p.2.bd.eventId = eventId) with
  | none => ([], [])
  | some pr =>
    if event.isActive then
      let bd := transformToBeatdown loc event
      let docId := generateBeatdownId bd
      let exId := generateBeatdownId pr.2.bd
      ([(docId, bd)], if exId = docId then [] else [exId])
    else
      ([], (store.filter (fun p => p.2.bd.eventId = eventId)).map (fun p => p.1))

/-! Auxiliary definitions used by the verification below. -/

/-- Big-endian decimal digit value list of a natural number. -/
def decDigits (n : ℕ) : List ℕ :=
  if n = 0 then [0] else (Nat.digits 10 n).reverse

/-- Characters of a list other than the hyphen, in order.  The
collapse and strip passes only remove hyphens, so this sequence is
their invariant. -/
def nonHyphens (l : List Char) : List Char := l.filter (fun c => c ≠ '-')

/-- Replacement of every maximal run of characters outside the allowed
class by one single hyphen.  This follows the specification's wording
of the sanitize step; the flag records whether the previous character
was outside the class. -/
def replaceRunsAux : Bool → List Char → List Char
  | _, [] => []
  | prevBad, c :: rest =>
    if isIdChar c then c :: replaceRunsAux false rest
    else if prevBad then replaceRunsAux true rest
    else '-' :: replaceRunsAux true rest

/-- Current-scheme id derivation as the specification words it:
concatenate region, name, day and event id with underscores,
lowercase, replace runs of disallowed characters by single hyphens,
collapse repeated hyphens and strip edge hyphens. -/
def specCurrentId (beatdown : Beatdown) : String :=
  String.mk (collapseStrip (replaceRunsAux false
    ((beatdown.region ++ "_" ++ beatdown.name ++ "_" ++ beatdown.dayOfWeek
      ++ "_" ++ natStr beatdown.eventId).data.map Char.toLower)))

/-- Legacy-scheme id derivation as the claim words it: the same
concatenate, lowercase and run-replacement steps over region, name and
day, with no collapse or strip pass. -/
def specLegacyId (beatdown : Beatdown) : String :=
  String.mk (replaceRunsAux false
    ((beatdown.region ++ "_" ++ beatdown.name ++ "_" ++ beatdown.dayOfWeek).data.map
      Char.toLower))

/-- Absence of two adjacent characters both outside the allowed class,
the condition under which per-character and per-run replacement agree. -/
def noAdjacentBad (l : List Char) : Prop :=
  l.Chain' (fun a b => isIdChar a || isIdChar b)

/-! Concrete scenarios used to settle individual claims. -/

/-- Record of upstream event 42 at region r, name x, on monday. -/
def bdMig : Beatdown := ⟨"monday", "", "Unknown", "r", "", "", "x", "", 0, 0, 5, 42⟩

/-- Stored snapshot holding that record under its legacy id only. -/
def storeMig : List (String × Beatdown) := [("r-x-monday", bdMig)]

/-- Stored snapshot with one record absent from the upstream feed. -/
def cxStore2 : List (String × StoredDoc) := [("x", ⟨bdMig, true, false, false⟩)]

/-- Upstream event of the end-to-end example. -/
def evC3 : ApiEvent :=
  ⟨9, "Gauntlet", "", true, 5, "monday", "0530", "0615",
    "", "", "", "", "", "", [⟨0, "River City"⟩], "", []⟩

/-- Upstream location of the end-to-end example. -/
def locC3 : ApiLocation :=
  ⟨5, "", "", true, "River City", 301 / 10, -816 / 10, "", "", "", "", ""⟩

/-- Reappearing upstream event of the revival scenario. -/
def evC4 : ApiEvent :=
  ⟨7, "a", "b", true, 5, "monday", "", "",
    "", "", "", "", "", "", [⟨0, "r"⟩], "", []⟩

/-- Location of the revival scenario. -/
def locC4 : ApiLocation := ⟨5, "", "", true, "r", 0, 0, "", "", "", "", ""⟩

/-- Normalized record of the reappearing event. -/
def bdC4 : Beatdown := transformToBeatdown locC4 evC4

/-- Stored snapshot holding the soft-deleted record of event 7 with
older notes, under the current-scheme id of the reappearing event. -/
def storeC4 : List (String × StoredDoc) :=
  [("r-a-monday-7", ⟨{ bdC4 with notes := "old" }, true, true, true⟩)]

/-- First of two records sharing a legacy id: event 1. -/
def bdColl1 : Beatdown := ⟨"monday", "", "", "r", "", "", "x", "", 0, 0, 5, 1⟩

/-- Second of two records sharing that legacy id: event 2. -/
def bdColl2 : Beatdown := ⟨"monday", "", "", "r", "", "", "x", "", 0, 0, 5, 2⟩

/-- Record stored under its current id with content identical to the
fresh record and no update timestamp anywhere in the snapshot. -/
def bdC6 : Beatdown := ⟨"monday", "", "", "r", "", "", "y", "", 0, 0, 5, 3⟩

/-- Stored snapshot for the classification scenario. -/
def storeC6 : List (String × Beatdown) := [("r-y-monday-3", bdC6)]

/-- Record whose name contains a run of two disallowed characters. -/
def bdRun : Beatdown := ⟨"monday", "", "", "x", "", "", "a  b", "", 0, 0, 5, 1⟩

/-- Two records agreeing on region, name, day and event id while
differing in every other field. -/
def bdId1 : Beatdown := ⟨"monday", "5:30 am", "T", "r", "", "n1", "x", "p1", 1, 2, 5, 3⟩

/-- Companion record for the id-stability scenario. -/
def bdId2 : Beatdown := ⟨"monday", "6:00 pm", "U", "r", "w", "n2", "x", "p2", 7, 8, 9, 3⟩

/-- Stored record of location 99 whose document id coincides with the
id derived for an event that has moved to location 5. -/
def bdOld99 : Beatdown := ⟨"monday", "", "", "r", "", "", "a", "", 0, 0, 99, 7⟩

/-- Stored snapshot for the webhook frame scenario. -/
def storeC10 : List (String × StoredDoc) := [("r-a-monday-7", ⟨bdOld99, true, false, false⟩)]

/-- Location 5 of the webhook frame scenario. -/
def locC10 : ApiLocation := ⟨5, "", "", true, "r", 0, 0, "", "", "", "", ""⟩

/-- Event 7, now referencing location 5. -/
def evC10 : ApiEvent :=
  ⟨7, "a", "", true, 5, "monday", "", "",
    "", "", "", "", "", "", [⟨0, "r"⟩], "", []⟩

/-! Properties of the decimal representation. -/

theorem toDigitsAux_eq (fuel : ℕ) : ∀ (n : ℕ) (acc : List Char), n < fuel →
    toDigitsAux fuel n acc = (decDigits n).map digitChar ++ acc := by
  induction fuel with
  | zero => intro n acc h; omega
  | succ fuel ih =>
    intro n acc h
    by_cases h10 : n < 10
    · by_cases h0 : n = 0
      · subst h0; simp [toDigitsAux, decDigits]
      · have hd : Nat.digits 10 n = [n] := by
          rw [Nat.digits_def' (by norm_num : (1:ℕ) < 10) (Nat.pos_of_ne_zero h0)]
          simp [Nat.mod_eq_of_lt h10, Nat.div_eq_of_lt h10]
        simp [toDigitsAux, h10, decDigits, h0, hd]
    · have hn0 : n ≠ 0 := by omega
      have hq0 : n / 10 ≠ 0 := by
        have := Nat.div_pos (le_of_not_lt h10) (by norm_num : (0:ℕ) < 10)
        omega
      have hlt : n / 10 < fuel := by
        have := Nat.div_lt_self (Nat.pos_of_ne_zero hn0) (by norm_num : (1:ℕ) < 10)
        omega
      have hd : Nat.digits 10 n = n % 10 :: Nat.digits 10 (n / 10) :=
        Nat.digits_def' (by norm_num : (1:ℕ) < 10) (Nat.pos_of_ne_zero hn0)
      simp only [toDigitsAux, if_neg h10]
      rw [ih _ _ hlt]
      simp [decDigits, hn0, hq0, hd]

theorem natRepr_eq (n : ℕ) : natRepr n = (decDigits n).map digitChar := by
  have h := toDigitsAux_eq (n + 1) n [] (Nat.lt_succ_self n)
  simpa [natRepr] using h

theorem decDigits_mem_lt {n d : ℕ} (h : d ∈ decDigits n) : d < 10 := by
  unfold decDigits at h
  by_cases h0 : n = 0
  · simp [h0] at h; omega
  · rw [if_neg h0, List.mem_reverse] at h
    exact Nat.digits_lt_base (by norm_num) h

theorem decDigits_ne_nil (n : ℕ) : decDigits n ≠ [] := by
  unfold decDigits
  by_cases h0 : n = 0
  · simp [h0]
  · rw [if_neg h0]
    simpa using Nat.digits_ne_nil_iff_ne_zero.mpr h0

theorem decDigits_inj {m n : ℕ} (h : decDigits m = decDigits n) : m = n := by
  unfold decDigits at h
  by_cases hm : m = 0 <;> by_cases hn : n = 0
  · omega
  · exfalso
    rw [if_pos hm, if_neg hn] at h
    have hdig : Nat.digits 10 n = [0] := by
      have := congrArg List.reverse h
      simpa using this.symm
    have hofd := Nat.ofDigits_digits 10 n
    rw [hdig] at hofd
    simp [Nat.ofDigits] at hofd
    exact hn hofd.symm
  · exfalso
    rw [if_neg hm, if_pos hn] at h
    have hdig : Nat.digits 10 m = [0] := by
      have := congrArg List.reverse h
      simpa using this
    have hofd := Nat.ofDigits_digits 10 m
    rw [hdig] at hofd
    simp [Nat.ofDigits] at hofd
    exact hm hofd.symm
  · rw [if_neg hm, if_neg hn] at h
    have hdig : Nat.digits 10 m = Nat.digits 10 n := by
      have := congrArg List.reverse h
      simpa using this
    calc m = Nat.ofDigits 10 (Nat.digits 10 m) := (Nat.ofDigits_digits 10 m).symm
    _ = Nat.ofDigits 10 (Nat.digits 10 n) := by rw [hdig]
    _ = n := Nat.ofDigits_digits 10 n

theorem digitChar_inj {a b : ℕ} (ha : a < 10) (hb : b < 10)
    (h : digitChar a = digitChar b) : a = b := by
  interval_cases a <;> interval_cases b <;> revert h <;> decide

theorem digitChar_lower {d : ℕ} (hd : d < 10) :
    Char.toLower (digitChar d) = digitChar d := by
  interval_cases d <;> decide

theorem digitChar_san {d : ℕ} (hd : d < 10) :
    sanChar (digitChar d) = digitChar d := by
  interval_cases d <;> decide

theorem digitChar_ne_hyphen {d : ℕ} (hd : d < 10) : digitChar d ≠ '-' := by
  interval_cases d <;> decide

theorem map_digitChar_inj : ∀ (l1 l2 : List ℕ), (∀ x ∈ l1, x < 10) →
    (∀ x ∈ l2, x < 10) → l1.map digitChar = l2.map digitChar → l1 = l2 := by
  intro l1
  induction l1 with
  | nil => intro l2 _ _ h; cases l2 <;> simp_all
  | cons a t ih =>
    intro l2 h1 h2 h
    cases l2 with
    | nil => simp at h
    | cons b t2 =>
      simp only [List.map_cons, List.cons.injEq] at h
      have ha := h1 a (by simp)
      have hb := h2 b (by simp)
      have := digitChar_inj ha hb h.1
      have ht := ih t2 (fun x hx => h1 x (by simp [hx]))
        (fun x hx => h2 x (by simp [hx])) h.2
      simp [this, ht]

theorem natRepr_injective {m n : ℕ} (h : natRepr m = natRepr n) : m = n := by
  rw [natRepr_eq, natRepr_eq] at h
  exact decDigits_inj (map_digitChar_inj _ _
    (fun x hx => decDigits_mem_lt hx) (fun x hx => decDigits_mem_lt hx) h)

theorem natRepr_ne_nil (n : ℕ) : natRepr n ≠ [] := by
  rw [natRepr_eq]
  intro h
  exact decDigits_ne_nil n (by simpa using h)

theorem natRepr_mem {n : ℕ} {c : Char} (h : c ∈ natRepr n) :
    Char.toLower c = c ∧ sanChar c = c ∧ c ≠ '-' := by
  rw [natRepr_eq] at h
  obtain ⟨d, hd, rfl⟩ := List.mem_map.mp h
  have := decDigits_mem_lt hd
  exact ⟨digitChar_lower this, digitChar_san this, digitChar_ne_hyphen this⟩

/-! Structure of the two id derivations. -/

theorem map_eq_self_of_mem {f : Char → Char} : ∀ (l : List Char),
    (∀ c ∈ l, f c = c) → l.map f = l := by
  intro l
  induction l with
  | nil => intro _; rfl
  | cons c t ih =>
    intro h
    simp only [List.map_cons, h c (by simp)]
    rw [ih (fun x hx => h x (by simp [hx]))]

theorem lowerSan_append (a b : List Char) :
    lowerSan (a ++ b) = lowerSan a ++ lowerSan b := by
  simp [lowerSan]

theorem lowerSan_natRepr (n : ℕ) : lowerSan (natRepr n) = natRepr n := by
  unfold lowerSan
  rw [map_eq_self_of_mem _ (fun c hc => (natRepr_mem hc).1)]
  exact map_eq_self_of_mem _ (fun c hc => (natRepr_mem hc).2.1)

theorem genNew_data (b : Beatdown) : (generateBeatdownId b).data =
    collapseStrip ((generateOldBeatdownId b).data ++ '-' :: natRepr b.eventId) := by
  unfold generateBeatdownId generateOldBeatdownId
  simp only [String.data_append, lowerSan_append, natStr]
  have hu : lowerSan "_".data = ['-'] := by decide
  simp [hu, lowerSan_natRepr]

theorem nonHyphens_cons_hyphen (l : List Char) :
    nonHyphens ('-' :: l) = nonHyphens l := by
  simp [nonHyphens]

theorem nonHyphens_cons_ne {c : Char} (l : List Char) (h : c ≠ '-') :
    nonHyphens (c :: l) = c :: nonHyphens l := by
  simp [nonHyphens, h]

theorem collapseAux_hyphen_true (l : List Char) :
    collapseAux true ('-' :: l) = collapseAux true l := by
  simp [collapseAux]

theorem collapseAux_hyphen_false (l : List Char) :
    collapseAux false ('-' :: l) = '-' :: collapseAux true l := by
  simp [collapseAux]

theorem collapseAux_cons_ne (b : Bool) {c : Char} (l : List Char) (h : c ≠ '-') :
    collapseAux b (c :: l) = c :: collapseAux false l := by
  simp [collapseAux, h]

theorem nonHyphens_collapseAux : ∀ (b : Bool) (l : List Char),
    nonHyphens (collapseAux b l) = nonHyphens l := by
  intro b l
  induction l generalizing b with
  | nil => rfl
  | cons c rest ih =>
    by_cases hc : c = '-'
    · subst hc
      cases b
      · rw [collapseAux_hyphen_false, nonHyphens_cons_hyphen,
          nonHyphens_cons_hyphen, ih true]
      · rw [collapseAux_hyphen_true, nonHyphens_cons_hyphen, ih true]
    · rw [collapseAux_cons_ne b rest hc, nonHyphens_cons_ne _ hc,
        nonHyphens_cons_ne _ hc, ih false]

theorem nonHyphens_stripLead (l : List Char) :
    nonHyphens (stripLead l) = nonHyphens l := by
  cases l with
  | nil => rfl
  | cons c rest =>
    by_cases hc : c = '-'
    · subst hc; simp [stripLead, nonHyphens]
    · simp [stripLead, hc]

theorem nonHyphens_reverse (l : List Char) :
    nonHyphens l.reverse = (nonHyphens l).reverse := by
  simp [nonHyphens, List.filter_reverse]

theorem nonHyphens_stripTrail (l : List Char) :
    nonHyphens (stripTrail l) = nonHyphens l := by
  unfold stripTrail
  rw [nonHyphens_reverse, nonHyphens_stripLead, nonHyphens_reverse]
  simp

theorem nonHyphens_collapseStrip (l : List Char) :
    nonHyphens (collapseStrip l) = nonHyphens l := by
  unfold collapseStrip
  rw [nonHyphens_stripTrail, nonHyphens_stripLead, nonHyphens_collapseAux]

theorem nonHyphens_append (a b : List Char) :
    nonHyphens (a ++ b) = nonHyphens a ++ nonHyphens b := by
  simp [nonHyphens]

theorem nonHyphens_natRepr (n : ℕ) : nonHyphens (natRepr n) = natRepr n := by
  unfold nonHyphens
  rw [List.filter_eq_self]
  intro c hc
  simpa using (natRepr_mem hc).2.2

theorem nonHyphens_genNew (b : Beatdown) :
    nonHyphens (generateBeatdownId b).data =
      nonHyphens (generateOldBeatdownId b).data ++ natRepr b.eventId := by
  rw [genNew_data, nonHyphens_collapseStrip, nonHyphens_append,
    nonHyphens_cons_hyphen, nonHyphens_natRepr]

theorem genNew_ne_of_eventId_ne {b1 b2 : Beatdown} (he : b1.eventId ≠ b2.eventId)
    (hold : generateOldBeatdownId b1 = generateOldBeatdownId b2) :
    generateBeatdownId b1 ≠ generateBeatdownId b2 := by
  intro h
  have h1 := nonHyphens_genNew b1
  have h2 := nonHyphens_genNew b2
  rw [congrArg String.data h] at h1
  rw [congrArg String.data hold] at h1
  rw [h2] at h1
  exact he (natRepr_injective (List.append_cancel_left h1.symm))

theorem genNew_ne_genOld (b : Beatdown) :
    generateBeatdownId b ≠ generateOldBeatdownId b := by
  intro h
  have h1 := nonHyphens_genNew b
  rw [congrArg String.data h] at h1
  have hlen := congrArg List.length h1
  rw [List.length_append] at hlen
  have : (natRepr b.eventId).length = 0 := by omega
  exact natRepr_ne_nil b.eventId (List.length_eq_zero.mp this)

/-! Branch equations of the script's loop body. -/

theorem scriptStep_found_equal {existing : List (String × Beatdown)}
    {acc : ScriptAcc} {bd ex : Beatdown}
    (h : lookupBd existing (generateBeatdownId bd) = some ex)
    (heq : beatdownsAreEqual ex bd) :
    scriptStep existing acc bd =
      { acc with processedIds := acc.processedIds ++ [generateBeatdownId bd],
                 skipCount := acc.skipCount + 1 } := by
  unfold scriptStep
  dsimp only
  rw [h]
  simp only [if_pos heq]

theorem scriptStep_found_ne {existing : List (String × Beatdown)}
    {acc : ScriptAcc} {bd ex : Beatdown}
    (h : lookupBd existing (generateBeatdownId bd) = some ex)
    (heq : ¬ beatdownsAreEqual ex bd) :
    scriptStep existing acc bd =
      { acc with processedIds := acc.processedIds ++ [generateBeatdownId bd],
                 toWrite := acc.toWrite ++ [bd],
                 updCount := acc.updCount + 1 } := by
  unfold scriptStep
  dsimp only
  rw [h]
  simp only [if_neg heq]

theorem scriptStep_migration {existing : List (String × Beatdown)}
    {acc : ScriptAcc} {bd oldBd : Beatdown}
    (h : lookupBd existing (generateBeatdownId bd) = none)
    (hold : lookupBd existing (generateOldBeatdownId bd) = some oldBd)
    (he : oldBd.eventId = bd.eventId) :
    scriptStep existing acc bd =
      { acc with processedIds := acc.processedIds ++ [generateBeatdownId bd]
                   ++ [generateOldBeatdownId bd],
                 toWrite := acc.toWrite ++ [bd],
                 updCount := acc.updCount + 1,
                 migrated := acc.migrated + 1 } := by
  unfold scriptStep
  dsimp only
  rw [h, hold]
  simp only [if_pos he]

theorem scriptStep_collision {existing : List (String × Beatdown)}
    {acc : ScriptAcc} {bd oldBd : Beatdown}
    (h : lookupBd existing (generateBeatdownId bd) = none)
    (hold : lookupBd existing (generateOldBeatdownId bd) = some oldBd)
    (he : oldBd.eventId ≠ bd.eventId) :
    scriptStep existing acc bd =
      { acc with processedIds := acc.processedIds ++ [generateBeatdownId bd],
                 toWrite := acc.toWrite ++ [bd],
                 newCount := acc.newCount + 1 } := by
  unfold scriptStep
  dsimp only
  rw [h, hold]
  simp only [if_neg he]

theorem scriptStep_new {existing : List (String × Beatdown)}
    {acc : ScriptAcc} {bd : Beatdown}
    (h : lookupBd existing (generateBeatdownId bd) = none)
    (hold : lookupBd existing (generateOldBeatdownId bd) = none) :
    scriptStep existing acc bd =
      { acc with processedIds := acc.processedIds ++ [generateBeatdownId bd],
                 toWrite := acc.toWrite ++ [bd],
                 newCount := acc.newCount + 1 } := by
  unfold scriptStep
  dsimp only
  rw [h, hold]

theorem scriptStep_toWrite_sub (existing : List (String × Beatdown))
    (acc : ScriptAcc) (bd : Beatdown) :
    ∀ x ∈ (scriptStep existing acc bd).toWrite, x ∈ acc.toWrite ∨ x = bd := by
  intro x hx
  rcases hfind : lookupBd existing (generateBeatdownId bd) with _ | ex
  · rcases hold : lookupBd existing (generateOldBeatdownId bd) with _ | oldBd
    · rw [scriptStep_new hfind hold] at hx
      simpa using hx
    · by_cases he : oldBd.eventId = bd.eventId
      · rw [scriptStep_migration hfind hold he] at hx
        simpa using hx
      · rw [scriptStep_collision hfind hold he] at hx
        simpa using hx
  · by_cases heq : beatdownsAreEqual ex bd
    · rw [scriptStep_found_equal hfind heq] at hx
      exact Or.inl hx
    · rw [scriptStep_found_ne hfind heq] at hx
      simpa using hx

theorem scriptFold_toWrite_mem (existing : List (String × Beatdown)) :
    ∀ (bds : List Beatdown) (acc : ScriptAcc) (x : Beatdown),
    x ∈ (bds.foldl (scriptStep existing) acc).toWrite →
    x ∈ acc.toWrite ∨ x ∈ bds := by
  intro bds
  induction bds with
  | nil => intro acc x hx; exact Or.inl hx
  | cons b t ih =>
    intro acc x hx
    rcases ih (scriptStep existing acc b) x hx with h | h
    · rcases scriptStep_toWrite_sub existing acc b x h with h' | h'
      · exact Or.inl h'
      · exact Or.inr (by simp [h'])
    · exact Or.inr (by simp [h])

theorem scriptSync_toWrite_mem (existing : List (String × Beatdown))
    (bds : List Beatdown) :
    ∀ x ∈ (scriptSync existing bds).toWrite, x ∈ bds := by
  intro x hx
  rcases scriptFold_toWrite_mem existing bds ScriptAcc.init x hx with h | h
  · simp [ScriptAcc.init] at h
  · exact h

/-! Branch equations of the scheduled function's loop body. -/

theorem syncStep_none {existing : List (String × StoredDoc)}
    {acc : SyncAcc} {bd : Beatdown}
    (h : lookupStore existing (generateBeatdownId bd) = none) :
    syncStep existing acc bd =
      { acc with processedIds := acc.processedIds ++ [generateBeatdownId bd],
                 toWrite := acc.toWrite ++ [bd],
                 newCount := acc.newCount + 1 } := by
  unfold syncStep
  dsimp only
  rw [h]

theorem syncStep_skip {existing : List (String × StoredDoc)}
    {acc : SyncAcc} {bd : Beatdown} {ex : StoredDoc}
    (h : lookupStore existing (generateBeatdownId bd) = some ex)
    (heq : beatdownsAreEqual ex.bd bd) (hlu : ex.lastUpdated = true) :
    syncStep existing acc bd =
      { acc with processedIds := acc.processedIds ++ [generateBeatdownId bd],
                 skipCount := acc.skipCount + 1 } := by
  unfold syncStep
  dsimp only
  rw [h]
  simp only [if_pos heq, hlu, if_true]

theorem syncStep_backfill {existing : List (String × StoredDoc)}
    {acc : SyncAcc} {bd : Beatdown} {ex : StoredDoc}
    (h : lookupStore existing (generateBeatdownId bd) = some ex)
    (heq : beatdownsAreEqual ex.bd bd) (hlu : ex.lastUpdated = false) :
    syncStep existing acc bd =
      { acc with processedIds := acc.processedIds ++ [generateBeatdownId bd],
                 toWrite := acc.toWrite ++ [bd],
                 updCount := acc.updCount + 1 } := by
  unfold syncStep
  dsimp only
  rw [h]
  simp only [if_pos heq, hlu]
  simp

theorem syncStep_changed {existing : List (String × StoredDoc)}
    {acc : SyncAcc} {bd : Beatdown} {ex : StoredDoc}
    (h : lookupStore existing (generateBeatdownId bd) = some ex)
    (heq : ¬ beatdownsAreEqual ex.bd bd) :
    syncStep existing acc bd =
      { acc with processedIds := acc.processedIds ++ [generateBeatdownId bd],
                 toWrite := acc.toWrite ++ [bd],
                 updCount := acc.updCount + 1 } := by
  unfold syncStep
  dsimp only
  rw [h]
  simp only [if_neg heq]

/-! Shape facts about the function's comparison loop. -/

theorem beatdownsAreEqual_refl (bd : Beatdown) : beatdownsAreEqual bd bd :=
  ⟨rfl, rfl, rfl, rfl, rfl, rfl, rfl, rfl, Or.inl ⟨rfl, rfl⟩⟩

theorem syncStep_processed (existing : List (String × StoredDoc))
    (acc : SyncAcc) (bd : Beatdown) :
    (syncStep existing acc bd).processedIds =
      acc.processedIds ++ [generateBeatdownId bd] := by
  rcases h : lookupStore existing (generateBeatdownId bd) with _ | ex
  · rw [syncStep_none h]
  · by_cases heq : beatdownsAreEqual ex.bd bd
    · rcases Bool.eq_false_or_eq_true ex.lastUpdated with hlu | hlu
      · rw [syncStep_skip h heq hlu]
      · rw [syncStep_backfill h heq hlu]
    · rw [syncStep_changed h heq]

theorem syncFold_processed (existing : List (String × StoredDoc)) :
    ∀ (bds : List Beatdown) (acc : SyncAcc),
    (bds.foldl (syncStep existing) acc).processedIds =
      acc.processedIds ++ bds.map generateBeatdownId := by
  intro bds
  induction bds with
  | nil => intro acc; simp
  | cons b t ih =>
    intro acc
    rw [List.foldl_cons, ih, syncStep_processed]
    simp

theorem syncScan_processed (existing : List (String × StoredDoc))
    (bds : List Beatdown) :
    (syncScan existing bds).processedIds = bds.map generateBeatdownId := by
  unfold syncScan
  rw [syncFold_processed]
  rfl

theorem syncDeleteSet_eq (existing : List (String × StoredDoc))
    (bds : List Beatdown) :
    syncDeleteSet existing bds = (existing.map (fun p => p.1)).filter
      (fun id => id ∉ bds.map generateBeatdownId) := by
  unfold syncDeleteSet
  rw [syncScan_processed]

theorem syncStep_toWrite_sub (existing : List (String × StoredDoc))
    (acc : SyncAcc) (bd : Beatdown) :
    ∀ x ∈ (syncStep existing acc bd).toWrite, x ∈ acc.toWrite ∨ x = bd := by
  intro x hx
  rcases h : lookupStore existing (generateBeatdownId bd) with _ | ex
  · rw [syncStep_none h] at hx; simpa using hx
  · by_cases heq : beatdownsAreEqual ex.bd bd
    · rcases Bool.eq_false_or_eq_true ex.lastUpdated with hlu | hlu
      · rw [syncStep_skip h heq hlu] at hx; exact Or.inl hx
      · rw [syncStep_backfill h heq hlu] at hx; simpa using hx
    · rw [syncStep_changed h heq] at hx; simpa using hx

theorem syncFold_toWrite_mem (existing : List (String × StoredDoc)) :
    ∀ (bds : List Beatdown) (acc : SyncAcc) (x : Beatdown),
    x ∈ (bds.foldl (syncStep existing) acc).toWrite →
    x ∈ acc.toWrite ∨ x ∈ bds := by
  intro bds
  induction bds with
  | nil => intro acc x hx; exact Or.inl hx
  | cons b t ih =>
    intro acc x hx
    rcases ih (syncStep existing acc b) x hx with h | h
    · rcases syncStep_toWrite_sub existing acc b x h with h' | h'
      · exact Or.inl h'
      · exact Or.inr (by simp [h'])
    · exact Or.inr (by simp [h])

theorem syncScan_toWrite_mem (existing : List (String × StoredDoc))
    (bds : List Beatdown) :
    ∀ x ∈ (syncScan existing bds).toWrite, x ∈ bds := by
  intro x hx
  rcases syncFold_toWrite_mem existing bds SyncAcc.init x hx with h | h
  · simp [SyncAcc.init] at h
  · exact h

theorem syncStep_toWrite_grow (existing : List (String × StoredDoc))
    (acc : SyncAcc) (bd : Beatdown) :
    ∃ t, (syncStep existing acc bd).toWrite = acc.toWrite ++ t ∧
      (t = [] ∨ t = [bd]) := by
  rcases h : lookupStore existing (generateBeatdownId bd) with _ | ex
  · exact ⟨[bd], by rw [syncStep_none h], Or.inr rfl⟩
  · by_cases heq : beatdownsAreEqual ex.bd bd
    · rcases Bool.eq_false_or_eq_true ex.lastUpdated with hlu | hlu
      · exact ⟨[], by rw [syncStep_skip h heq hlu]; simp, Or.inl rfl⟩
      · exact ⟨[bd], by rw [syncStep_backfill h heq hlu], Or.inr rfl⟩
    · exact ⟨[bd], by rw [syncStep_changed h heq], Or.inr rfl⟩

theorem syncFold_toWrite_sublist (existing : List (String × StoredDoc)) :
    ∀ (bds : List Beatdown) (acc : SyncAcc),
    ∃ t, (bds.foldl (syncStep existing) acc).toWrite = acc.toWrite ++ t ∧
      t.Sublist bds := by
  intro bds
  induction bds with
  | nil => intro acc; exact ⟨[], by simp, List.nil_sublist []⟩
  | cons b tl ih =>
    intro acc
    obtain ⟨t0, h0, hc⟩ := syncStep_toWrite_grow existing acc b
    obtain ⟨t1, h1, hs1⟩ := ih (syncStep existing acc b)
    refine ⟨t0 ++ t1, by rw [List.foldl_cons, h1, h0, List.append_assoc], ?_⟩
    rcases hc with rfl | rfl
    · exact List.sublist_cons_of_sublist b hs1
    · simpa using List.Sublist.cons₂ b hs1

theorem syncFold_toWrite_grow (existing : List (String × StoredDoc)) :
    ∀ (bds : List Beatdown) (acc : SyncAcc),
    ∃ t, (bds.foldl (syncStep existing) acc).toWrite = acc.toWrite ++ t := by
  intro bds acc
  obtain ⟨t, ht, _⟩ := syncFold_toWrite_sublist existing bds acc
  exact ⟨t, ht⟩

theorem syncScan_toWrite_sublist (existing : List (String × StoredDoc))
    (bds : List Beatdown) : ((syncScan existing bds).toWrite).Sublist bds := by
  obtain ⟨t, ht, hs⟩ := syncFold_toWrite_sublist existing bds SyncAcc.init
  unfold syncScan
  rw [ht]
  simpa [SyncAcc.init] using hs

theorem syncFold_skip_witness (existing : List (String × StoredDoc)) :
    ∀ (bds : List Beatdown) (acc : SyncAcc) (bd : Beatdown), bd ∈ bds →
    bd ∉ (bds.foldl (syncStep existing) acc).toWrite →
    ∃ ex, lookupStore existing (generateBeatdownId bd) = some ex ∧
      beatdownsAreEqual ex.bd bd ∧ ex.lastUpdated = true := by
  intro bds
  induction bds with
  | nil => intro acc bd h; simp at h
  | cons b t ih =>
    intro acc bd hmem hnw
    rw [List.foldl_cons] at hnw
    rcases List.mem_cons.mp hmem with rfl | hmem
    · by_contra hcon
      apply hnw
      obtain ⟨t1, h1⟩ := syncFold_toWrite_grow existing t (syncStep existing acc bd)
      rw [h1]
      rcases h : lookupStore existing (generateBeatdownId bd) with _ | ex
      · rw [syncStep_none h]; simp
      · by_cases heq : beatdownsAreEqual ex.bd bd
        · rcases Bool.eq_false_or_eq_true ex.lastUpdated with hlu | hlu
          · exact absurd ⟨ex, h, heq, hlu⟩ hcon
          · rw [syncStep_backfill h heq hlu]; simp
        · rw [syncStep_changed h heq]; simp
    · exact ih (syncStep existing acc b) bd hmem hnw

theorem syncFold_all_skip (existing : List (String × StoredDoc)) :
    ∀ (bds : List Beatdown) (acc : SyncAcc),
    (∀ bd ∈ bds, ∃ ex, lookupStore existing (generateBeatdownId bd) = some ex ∧
      beatdownsAreEqual ex.bd bd ∧ ex.lastUpdated = true) →
    (bds.foldl (syncStep existing) acc).toWrite = acc.toWrite := by
  intro bds
  induction bds with
  | nil => intro acc _; rfl
  | cons b t ih =>
    intro acc h
    obtain ⟨ex, hex, heq, hlu⟩ := h b (by simp)
    rw [List.foldl_cons, ih _ (fun bd hbd => h bd (by simp [hbd])),
      syncStep_skip hex heq hlu]

/-! Effect of the merge writes and soft deletions on the snapshot. -/

theorem find?_map_key (g : StoredDoc → StoredDoc) (k k' : String) :
    ∀ (s : List (String × StoredDoc)),
    ((s.map (fun p => if p.1 = k then (p.1, g p.2) else p)).find?
        (fun p => p.1 = k')) =
      (s.find? (fun p => p.1 = k')).map
        (fun p => if p.1 = k then (p.1, g p.2) else p) := by
  intro s
  induction s with
  | nil => rfl
  | cons p t ih =>
    by_cases hpk : p.1 = k <;> by_cases hp' : p.1 = k'
    · have hkk : k = k' := hpk.symm.trans hp'
      simp [List.find?_cons, hpk, hp', hkk, ih]
    · have hkk : ¬ k = k' := fun h => hp' (hpk.trans h)
      simp [List.find?_cons, hpk, hp', hkk, ih]
    · have hkk : ¬ k' = k := fun h => hpk (hp'.trans h)
      simp [List.find?_cons, hpk, hp', hkk, ih]
    · simp [List.find?_cons, hpk, hp', ih]

theorem lookupStore_markDeleted_other {k k' : String} (hk : k' ≠ k)
    (s : List (String × StoredDoc)) :
    lookupStore (markDeleted s k) k' = lookupStore s k' := by
  unfold markDeleted lookupStore
  rw [find?_map_key]
  cases h : s.find? (fun p => p.1 = k') with
  | none => rfl
  | some p =>
    have hp' : p.1 = k' := by simpa using List.find?_some h
    simp [if_neg (show ¬ p.1 = k by rw [hp']; exact hk)]

theorem lookupStore_markDeleted_self (k : String)
    (s : List (String × StoredDoc)) :
    lookupStore (markDeleted s k) k = (lookupStore s k).map softDeleteDoc := by
  unfold markDeleted lookupStore
  rw [find?_map_key]
  cases h : s.find? (fun p => p.1 = k) with
  | none => rfl
  | some p =>
    have hp' : p.1 = k := by simpa using List.find?_some h
    simp [if_pos hp']

theorem lookupStore_setMerge_other {k k' : String} (hk : k' ≠ k) (bd : Beatdown)
    (s : List (String × StoredDoc)) :
    lookupStore (setMerge s k bd) k' = lookupStore s k' := by
  unfold setMerge
  by_cases hs : (s.find? (fun p => p.1 = k)).isSome
  · rw [if_pos hs]
    unfold lookupStore
    rw [find?_map_key (fun d => { d with bd := bd, lastUpdated := true }) k k']
    cases h : s.find? (fun p => p.1 = k') with
    | none => rfl
    | some p =>
      have hp' : p.1 = k' := by simpa using List.find?_some h
      simp [if_neg (show ¬ p.1 = k by rw [hp']; exact hk)]
  · rw [if_neg hs]
    unfold lookupStore
    rw [List.find?_append]
    have h2 : ([(k, (⟨bd, true, false, false⟩ : StoredDoc))].find?
        (fun p => p.1 = k')) = none := by
      rw [List.find?_cons_of_neg _ (by simp; exact fun h => hk h.symm)]
      rfl
    rw [h2]
    simp

theorem lookupStore_setMerge_self (k : String) (bd : Beatdown)
    (s : List (String × StoredDoc)) :
    lookupStore (setMerge s k bd) k = some (mergeDoc (lookupStore s k) bd) := by
  unfold setMerge
  by_cases hs : (s.find? (fun p => p.1 = k)).isSome
  · rw [if_pos hs]
    unfold lookupStore
    rw [find?_map_key (fun d => { d with bd := bd, lastUpdated := true }) k k]
    cases h : s.find? (fun p => p.1 = k) with
    | none => rw [h] at hs; simp at hs
    | some p =>
      have hp' : p.1 = k := by simpa using List.find?_some h
      simp [if_pos hp', mergeDoc]
  · rw [if_neg hs]
    unfold lookupStore
    rw [List.find?_append]
    have h1 : s.find? (fun p => p.1 = k) = none := by
      cases h : s.find? (fun p => p.1 = k) with
      | none => rfl
      | some p => rw [h] at hs; simp at hs
    rw [h1, List.find?_cons_of_pos _ (by simp)]
    simp [mergeDoc, h1]

/-! Effect of sequences of writes and deletions. -/

theorem mergeDoc_bd (o : Option StoredDoc) (bd : Beatdown) :
    (mergeDoc o bd).bd = bd := by
  cases o <;> rfl

theorem mergeDoc_lastUpdated (o : Option StoredDoc) (bd : Beatdown) :
    (mergeDoc o bd).lastUpdated = true := by
  cases o <;> rfl

theorem lookupStore_applyWrites_not_mem {k : String} :
    ∀ (ws : List Beatdown) (s : List (String × StoredDoc)),
    k ∉ ws.map generateBeatdownId →
    lookupStore (applyWrites s ws) k = lookupStore s k := by
  intro ws
  induction ws with
  | nil => intro s _; rfl
  | cons w t ih =>
    intro s hk
    have hk1 : k ≠ generateBeatdownId w := by
      intro h; exact hk (by simp [h])
    have hk2 : k ∉ t.map generateBeatdownId := by
      intro h; exact hk (by simp [h])
    show lookupStore (applyWrites (setMerge s (generateBeatdownId w) w) t) k = _
    rw [ih _ hk2, lookupStore_setMerge_other hk1]

theorem lookupStore_applyWrites_mem {k : String} {w : Beatdown} :
    ∀ (ws : List Beatdown) (s : List (String × StoredDoc)),
    ((ws.map generateBeatdownId).Nodup) → w ∈ ws → generateBeatdownId w = k →
    lookupStore (applyWrites s ws) k = some (mergeDoc (lookupStore s k) w) := by
  intro ws
  induction ws with
  | nil => intro s _ hw; simp at hw
  | cons w0 t ih =>
    intro s hN hw hk
    have hN' : (t.map generateBeatdownId).Nodup := (List.nodup_cons.mp hN).2
    by_cases h0 : generateBeatdownId w0 = k
    · have hw0 : w = w0 := by
        rcases List.mem_cons.mp hw with rfl | hwt
        · rfl
        · exfalso
          have : k ∈ t.map generateBeatdownId := hk ▸ List.mem_map_of_mem _ hwt
          exact (List.nodup_cons.mp hN).1 (h0 ▸ this)
      subst hw0
      have hknot : k ∉ t.map generateBeatdownId :=
        h0 ▸ (List.nodup_cons.mp hN).1
      show lookupStore (applyWrites (setMerge s (generateBeatdownId w) w) t) k = _
      rw [lookupStore_applyWrites_not_mem t _ hknot, hk,
        lookupStore_setMerge_self]
    · have hwt : w ∈ t := by
        rcases List.mem_cons.mp hw with rfl | hwt
        · exact absurd hk h0
        · exact hwt
      show lookupStore (applyWrites (setMerge s (generateBeatdownId w0) w0) t) k = _
      rw [ih _ hN' hwt hk,
        lookupStore_setMerge_other (fun h => h0 h.symm) w0]

theorem lookupStore_applyDeletes_not_mem {k : String} :
    ∀ (ds : List String) (s : List (String × StoredDoc)),
    k ∉ ds → lookupStore (applyDeletes s ds) k = lookupStore s k := by
  intro ds
  induction ds with
  | nil => intro s _; rfl
  | cons d t ih =>
    intro s hk
    have hk1 : k ≠ d := by intro h; exact hk (by simp [h])
    have hk2 : k ∉ t := by intro h; exact hk (by simp [h])
    show lookupStore (applyDeletes (markDeleted s d) t) k = _
    rw [ih _ hk2, lookupStore_markDeleted_other hk1]

theorem keys_markDeleted (k : String) :
    ∀ (s : List (String × StoredDoc)),
    (markDeleted s k).map (fun p => p.1) = s.map (fun p => p.1) := by
  intro s
  induction s with
  | nil => rfl
  | cons p t ih =>
    unfold markDeleted at ih ⊢
    by_cases hp : p.1 = k <;> simp [hp, ih]

theorem keys_applyDeletes :
    ∀ (ds : List String) (s : List (String × StoredDoc)),
    (applyDeletes s ds).map (fun p => p.1) = s.map (fun p => p.1) := by
  intro ds
  induction ds with
  | nil => intro s; rfl
  | cons d t ih =>
    intro s
    show (applyDeletes (markDeleted s d) t).map _ = _
    rw [ih, keys_markDeleted]

theorem keys_setMerge (s : List (String × StoredDoc)) (k : String) (bd : Beatdown) :
    ∃ ext, (setMerge s k bd).map (fun p => p.1) = s.map (fun p => p.1) ++ ext ∧
      ∀ x ∈ ext, x = k := by
  unfold setMerge
  by_cases hs : (s.find? (fun p => p.1 = k)).isSome
  · refine ⟨[], ?_, by simp⟩
    rw [if_pos hs]
    simp only [List.map_map, List.append_nil]
    apply List.map_congr_left
    intro p _
    by_cases hp : p.1 = k <;> simp [hp]
  · refine ⟨[k], ?_, by simp⟩
    rw [if_neg hs]
    simp

theorem keys_applyWrites :
    ∀ (ws : List Beatdown) (s : List (String × StoredDoc)),
    ∃ ext, (applyWrites s ws).map (fun p => p.1) = s.map (fun p => p.1) ++ ext ∧
      ∀ x ∈ ext, x ∈ ws.map generateBeatdownId := by
  intro ws
  induction ws with
  | nil => intro s; exact ⟨[], by simp [applyWrites], by simp⟩
  | cons w t ih =>
    intro s
    obtain ⟨e0, h0, he0⟩ := keys_setMerge s (generateBeatdownId w) w
    obtain ⟨e1, h1, he1⟩ := ih (setMerge s (generateBeatdownId w) w)
    refine ⟨e0 ++ e1, ?_, ?_⟩
    · show (applyWrites (setMerge s (generateBeatdownId w) w) t).map _ = _
      rw [h1, h0, List.append_assoc]
    · intro x hx
      rcases List.mem_append.mp hx with hx | hx
      · simp [he0 x hx]
      · have := he1 x hx
        simp only [List.map_cons, List.mem_cons]
        exact Or.inr this

/-! Idempotence core of the scheduled pass. -/

theorem syncApplyCore_skip_all (stored : List (String × StoredDoc))
    (bds : List Beatdown) (hids : (bds.map generateBeatdownId).Nodup) :
    ∀ bd ∈ bds, ∃ ex,
      lookupStore (syncApplyCore stored bds) (generateBeatdownId bd) = some ex ∧
      beatdownsAreEqual ex.bd bd ∧ ex.lastUpdated = true := by
  intro bd hbd
  have hkproc : generateBeatdownId bd ∈ bds.map generateBeatdownId :=
    List.mem_map_of_mem _ hbd
  have hknotdel : generateBeatdownId bd ∉ syncDeleteSet stored bds := by
    rw [syncDeleteSet_eq]
    intro hmem
    have h2 := (List.mem_filter.mp hmem).2
    rw [decide_eq_true_iff] at h2
    exact h2 hkproc
  have hdel : lookupStore (syncApplyCore stored bds) (generateBeatdownId bd) =
      lookupStore (applyWrites stored (syncScan stored bds).toWrite)
        (generateBeatdownId bd) := by
    unfold syncApplyCore
    exact lookupStore_applyDeletes_not_mem _ _ hknotdel
  have hNw : (((syncScan stored bds).toWrite).map generateBeatdownId).Nodup :=
    List.Nodup.sublist (List.Sublist.map _ (syncScan_toWrite_sublist stored bds)) hids
  by_cases hkw : generateBeatdownId bd ∈
      ((syncScan stored bds).toWrite).map generateBeatdownId
  · obtain ⟨w, hw, hwk⟩ := List.mem_map.mp hkw
    have hwbds : w ∈ bds := syncScan_toWrite_mem stored bds w hw
    have hwbd : w = bd :=
      List.inj_on_of_nodup_map hids (by simpa using hwbds) (by simpa using hbd) hwk
    subst hwbd
    refine ⟨mergeDoc (lookupStore stored (generateBeatdownId w)) w, ?_, ?_, ?_⟩
    · rw [hdel]
      exact lookupStore_applyWrites_mem _ _ hNw hw hwk
    · rw [mergeDoc_bd]
      exact beatdownsAreEqual_refl w
    · exact mergeDoc_lastUpdated _ w
  · have hbdnw : bd ∉ (syncScan stored bds).toWrite := by
      intro h
      exact hkw (List.mem_map_of_mem _ h)
    obtain ⟨ex, hex, heq, hlu⟩ :=
      syncFold_skip_witness stored bds SyncAcc.init bd hbd hbdnw
    refine ⟨ex, ?_, heq, hlu⟩
    rw [hdel, lookupStore_applyWrites_not_mem _ _ hkw, hex]

theorem syncApplyCore_second_scan (stored : List (String × StoredDoc))
    (bds : List Beatdown) (hids : (bds.map generateBeatdownId).Nodup) :
    (syncScan (syncApplyCore stored bds) bds).toWrite = [] := by
  unfold syncScan
  rw [syncFold_all_skip _ bds SyncAcc.init (syncApplyCore_skip_all stored bds hids)]
  rfl

theorem syncApplyCore_second_deletes (stored : List (String × StoredDoc))
    (bds : List Beatdown) :
    syncDeleteSet (syncApplyCore stored bds) bds = syncDeleteSet stored bds := by
  rw [syncDeleteSet_eq, syncDeleteSet_eq]
  obtain ⟨ext, hkeys, hext⟩ :=
    keys_applyWrites (syncScan stored bds).toWrite stored
  have hkeys2 : (syncApplyCore stored bds).map (fun p => p.1) =
      stored.map (fun p => p.1) ++ ext := by
    unfold syncApplyCore
    rw [keys_applyDeletes, hkeys]
  rw [hkeys2, List.filter_append]
  have hnil : ext.filter (fun id => id ∉ bds.map generateBeatdownId) = [] := by
    rw [List.filter_eq_nil_iff]
    intro x hx
    have hxw := hext x hx
    obtain ⟨w, hw, hwk⟩ := List.mem_map.mp hxw
    have : x ∈ bds.map generateBeatdownId :=
      hwk ▸ List.mem_map_of_mem _ (syncScan_toWrite_mem stored bds w hw)
    simp [this]
  rw [hnil, List.append_nil]

/-! Properties of the tolerant numeric comparison. -/

theorem normalizeValueNum_eq (q : ℚ) :
    normalizeValueNum q = (round (q * 100000) : ℤ) / 100000 := by
  unfold normalizeValueNum
  by_cases h : q.den = 1
  · rw [if_pos h]
    obtain ⟨n, hn⟩ : ∃ n : ℤ, ((n : ℚ)) = q :=
      ⟨q.num, Rat.coe_int_num_of_den_eq_one h⟩
    rw [← hn]
    have h1 : ((n : ℚ)) * 100000 = ((n * 100000 : ℤ) : ℚ) := by
      push_cast; ring
    rw [h1, round_intCast]
    push_cast
    field_simp
  · rw [if_neg h]

theorem normalizeValueNum_ne_of_abs_one {a c : ℚ} (h : |a - c| = 1) :
    normalizeValueNum a ≠ normalizeValueNum c := by
  intro heq
  rw [normalizeValueNum_eq, normalizeValueNum_eq] at heq
  have h2 : ((round (a * 100000) : ℤ) : ℚ) = ((round (c * 100000) : ℤ) : ℚ) := by
    field_simp at heq
    exact_mod_cast heq
  have h3 : round (a * 100000) = round (c * 100000) := by exact_mod_cast h2
  rcases (abs_eq (by norm_num : (0:ℚ) ≤ 1)).mp h with h4 | h4
  · have h5 : a * 100000 = c * 100000 + ((100000 : ℤ) : ℚ) := by
      push_cast; linarith
    rw [h5, round_add_int] at h3
    omega
  · have h5 : c * 100000 = a * 100000 + ((100000 : ℤ) : ℚ) := by
      push_cast; linarith
    rw [h5, round_add_int] at h3
    omega

theorem planarDistance_ge_lat (a b c d : ℚ) :
    |(a:ℝ) - (c:ℝ)| * 111000 ≤ planarDistance a b c d := by
  unfold planarDistance
  have h1 : (0:ℝ) ≤ |(a:ℝ) - (c:ℝ)| * 111000 := by positivity
  have h2 : (0:ℝ) ≤ (|(b:ℝ) - (d:ℝ)| * 111000 *
      Real.cos (((a:ℝ) + (c:ℝ)) / 2 * Real.pi / 180)) *
      (|(b:ℝ) - (d:ℝ)| * 111000 *
      Real.cos (((a:ℝ) + (c:ℝ)) / 2 * Real.pi / 180)) := mul_self_nonneg _
  have h3 : (0:ℝ) ≤ |(a:ℝ) - (c:ℝ)| * 111000 * (|(a:ℝ) - (c:ℝ)| * 111000) +
      (|(b:ℝ) - (d:ℝ)| * 111000 *
      Real.cos (((a:ℝ) + (c:ℝ)) / 2 * Real.pi / 180)) *
      (|(b:ℝ) - (d:ℝ)| * 111000 *
      Real.cos (((a:ℝ) + (c:ℝ)) / 2 * Real.pi / 180)) := by positivity
  rw [Real.le_sqrt h1 h3]
  nlinarith [h2]

theorem planarDistance_small {a b c d : ℚ}
    (h1 : |a - c| ≤ 5 / 100000) (h2 : |b - d| ≤ 5 / 100000) :
    planarDistance a b c d < 10 := by
  unfold planarDistance
  rw [Real.sqrt_lt' (by norm_num : (0:ℝ) < 10)]
  have hX : |(a:ℝ) - (c:ℝ)| ≤ 5 / 100000 := by
    have h3 := (Rat.cast_le (K := ℝ)).mpr h1
    push_cast at h3
    exact h3
  have hY : |(b:ℝ) - (d:ℝ)| ≤ 5 / 100000 := by
    have h3 := (Rat.cast_le (K := ℝ)).mpr h2
    push_cast at h3
    exact h3
  have hX0 : (0:ℝ) ≤ |(a:ℝ) - (c:ℝ)| := abs_nonneg _
  have hY0 : (0:ℝ) ≤ |(b:ℝ) - (d:ℝ)| := abs_nonneg _
  have hC1 : Real.cos (((a:ℝ) + (c:ℝ)) / 2 * Real.pi / 180) ≤ 1 :=
    Real.cos_le_one _
  have hC2 : -1 ≤ Real.cos (((a:ℝ) + (c:ℝ)) / 2 * Real.pi / 180) :=
    Real.neg_one_le_cos _
  have hA : |(a:ℝ) - (c:ℝ)| * 111000 ≤ 111 / 20 := by nlinarith
  have hB : |(b:ℝ) - (d:ℝ)| * 111000 ≤ 111 / 20 := by nlinarith
  have hA0 : (0:ℝ) ≤ |(a:ℝ) - (c:ℝ)| * 111000 := by positivity
  have hB0 : (0:ℝ) ≤ |(b:ℝ) - (d:ℝ)| * 111000 := by positivity
  have hCC : Real.cos (((a:ℝ) + (c:ℝ)) / 2 * Real.pi / 180) *
      Real.cos (((a:ℝ) + (c:ℝ)) / 2 * Real.pi / 180) ≤ 1 := by nlinarith
  have hsq1 : |(a:ℝ) - (c:ℝ)| * 111000 * (|(a:ℝ) - (c:ℝ)| * 111000) ≤
      (111 / 20) * (111 / 20) := mul_le_mul hA hA hA0 (by norm_num)
  have hsq2 : |(b:ℝ) - (d:ℝ)| * 111000 * (|(b:ℝ) - (d:ℝ)| * 111000) ≤
      (111 / 20) * (111 / 20) := mul_le_mul hB hB hB0 (by norm_num)
  nlinarith [mul_self_nonneg (|(b:ℝ) - (d:ℝ)| * 111000 *
    Real.cos (((a:ℝ) + (c:ℝ)) / 2 * Real.pi / 180)),
    mul_self_nonneg (Real.cos (((a:ℝ) + (c:ℝ)) / 2 * Real.pi / 180))]

theorem planarDistance_not_small {a b c d : ℚ} (h : |a - c| = 1) :
    ¬ planarDistance a b c d < 10 := by
  have hcast : |(a:ℝ) - (c:ℝ)| = 1 := by exact_mod_cast h
  have hge := planarDistance_ge_lat a b c d
  rw [hcast] at hge
  intro hlt
  linarith

/-! Per-run versus per-character replacement. -/

theorem replaceRunsAux_id {c : Char} (p : Bool) (rest : List Char)
    (h : isIdChar c = true) :
    replaceRunsAux p (c :: rest) = c :: replaceRunsAux false rest := by
  simp [replaceRunsAux, h]

theorem replaceRunsAux_bad_true {c : Char} (rest : List Char)
    (h : ¬ isIdChar c = true) :
    replaceRunsAux true (c :: rest) = replaceRunsAux true rest := by
  simp [replaceRunsAux, h]

theorem replaceRunsAux_bad_false {c : Char} (rest : List Char)
    (h : ¬ isIdChar c = true) :
    replaceRunsAux false (c :: rest) = '-' :: replaceRunsAux true rest := by
  simp [replaceRunsAux, h]

theorem sanChar_id {c : Char} (h : isIdChar c = true) : sanChar c = c := by
  simp [sanChar, h]

theorem sanChar_bad {c : Char} (h : ¬ isIdChar c = true) : sanChar c = '-' := by
  simp [sanChar, h]

theorem hyphen_isIdChar : isIdChar '-' = true := by decide

theorem collapse_map_replaceRuns : ∀ (l : List Char) (b p : Bool),
    (p = true → b = true) →
    collapseAux b (l.map sanChar) = collapseAux b (replaceRunsAux p l) := by
  intro l
  induction l with
  | nil => intro b p _; rfl
  | cons c rest ih =>
    intro b p hbp
    by_cases hid : isIdChar c = true
    · by_cases hc : c = '-'
      · subst hc
        rw [List.map_cons, sanChar_id hid, replaceRunsAux_id p rest hid]
        cases b
        · rw [collapseAux_hyphen_false, collapseAux_hyphen_false]
          rw [ih true false (by simp)]
        · rw [collapseAux_hyphen_true, collapseAux_hyphen_true]
          rw [ih true false (by simp)]
      · rw [List.map_cons, sanChar_id hid, replaceRunsAux_id p rest hid,
          collapseAux_cons_ne b _ hc, collapseAux_cons_ne b _ hc,
          ih false false (by simp)]
    · rw [List.map_cons, sanChar_bad hid]
      by_cases hp : p = true
      · subst hp
        have hb : b = true := hbp rfl
        subst hb
        rw [replaceRunsAux_bad_true rest hid, collapseAux_hyphen_true,
          ih true true (fun _ => rfl)]
      · have hp' : p = false := by revert hp; cases p <;> simp
        subst hp'
        rw [replaceRunsAux_bad_false rest hid]
        cases b
        · rw [collapseAux_hyphen_false, collapseAux_hyphen_false,
            ih true true (fun _ => rfl)]
        · rw [collapseAux_hyphen_true, collapseAux_hyphen_true,
            ih true true (fun _ => rfl)]

theorem collapseStrip_map_replaceRuns (l : List Char) :
    collapseStrip (l.map sanChar) = collapseStrip (replaceRunsAux false l) := by
  unfold collapseStrip
  rw [collapse_map_replaceRuns l false false (by simp)]

theorem replaceRunsAux_true_of_head_id : ∀ (l : List Char),
    (l = [] ∨ ∃ d t, l = d :: t ∧ isIdChar d = true) →
    replaceRunsAux true l = replaceRunsAux false l := by
  intro l h
  rcases h with rfl | ⟨d, t, rfl, hd⟩
  · rfl
  · rw [replaceRunsAux_id true t hd, replaceRunsAux_id false t hd]

theorem map_sanChar_replaceRuns_of_noAdjacent : ∀ (l : List Char),
    noAdjacentBad l → l.map sanChar = replaceRunsAux false l := by
  intro l
  induction l with
  | nil => intro _; rfl
  | cons c rest ih =>
    intro h
    by_cases hid : isIdChar c = true
    · rw [List.map_cons, sanChar_id hid, replaceRunsAux_id false rest hid,
        ih (List.Chain'.tail h)]
    · rw [List.map_cons, sanChar_bad hid, replaceRunsAux_bad_false rest hid]
      cases rest with
      | nil => rfl
      | cons d t =>
        have hR : (isIdChar c || isIdChar d) = true := by
          have := List.chain'_cons.mp h
          exact this.1
        have hd : isIdChar d = true := by
          revert hR
          simp [hid]
        rw [replaceRunsAux_true_of_head_id (d :: t) (Or.inr ⟨d, t, rfl, hd⟩)]
        rw [ih (List.Chain'.tail h)]

/-! Settled claims. -/

/-- C1: on the failing input of the migration scenario, a stored record
held only under its legacy id with the same event id 42 is counted as
exactly one migration and written under its current-scheme id even
though every content field of the fresh record equals the stored one;
however the legacy id is absent from the cleanup candidate set computed
at the end of the pass, because the loop adds it to the processed set,
which is exactly the set that survives cleanup, although the inline
comment states the addition is made so the old id gets cleaned up. -/
theorem C1_migration_eval :
    (scriptSync storeMig [bdMig]).migrated = 1 ∧
    (scriptSync storeMig [bdMig]).toWrite = [bdMig] ∧
    generateBeatdownId bdMig = "r-x-monday-42" ∧
    generateOldBeatdownId bdMig = "r-x-monday" ∧
    scriptDeletes storeMig [bdMig] = [] := by
  refine ⟨?_, ?_, ?_, ?_, ?_⟩ <;> decide

/-- C2 counterexample: with one stored record and an empty upstream
feed, the first pass soft-deletes the record, and the second pass run
against the resulting state soft-deletes it again, so the number of
soft-deletes on the second run is one, not zero. -/
theorem C2_second_run_deletes_again :
    syncDeletes (syncFinal cxStore2 [] []) [] [] = ["x"] := by decide

/-- C2 amended: provided distinct upstream records derive distinct
current-scheme ids, the second run of the full pass against the state
produced by the first run performs zero upserts, and its soft-delete
set is identical to the first run's, so it is empty only when the
first run's was. -/
theorem C2_sync_second_run (stored : List (String × StoredDoc))
    (events : List ApiEvent) (locs : List ApiLocation)
    (hids : ((toBeatdowns events locs).map generateBeatdownId).Nodup) :
    (syncOutcome (syncFinal stored events locs) events locs).toWrite = [] ∧
    syncDeletes (syncFinal stored events locs) events locs =
      syncDeletes stored events locs := by
  unfold syncOutcome syncDeletes syncFinal
  exact ⟨syncApplyCore_second_scan stored _ hids,
    syncApplyCore_second_deletes stored _⟩

/-- C2 witness: the amended idempotence statement at a concrete store
and an empty feed. -/
theorem C2_sync_second_run_witness :
    (syncOutcome (syncFinal cxStore2 [] []) [] []).toWrite = [] ∧
    syncDeletes (syncFinal cxStore2 [] []) [] [] = syncDeletes cxStore2 [] [] :=
  C2_sync_second_run cxStore2 [] [] (by decide)

/-- C3 counterexample: the end-to-end example's derived id is not the
claimed string with underscores, because underscores are outside the
allowed character class and are replaced by hyphens. -/
theorem C3_id_not_underscored :
    generateBeatdownId (transformEventToBeatdown evC3 locC3) ≠
      "river-city_gauntlet_monday_9" := by decide

/-- C3 amended: normalizing the example event and location yields the
claimed field values, and the derived current-scheme id is
river-city-gauntlet-monday-9, with hyphens replacing the underscores
of the concatenation. -/
theorem C3_example_end_to_end :
    (transformEventToBeatdown evC3 locC3).dayOfWeek = "monday" ∧
    (transformEventToBeatdown evC3 locC3).timeString = "5:30 am - 6:15 am" ∧
    (transformEventToBeatdown evC3 locC3).region = "River City" ∧
    (transformEventToBeatdown evC3 locC3).name = "Gauntlet" ∧
    (transformEventToBeatdown evC3 locC3).lat = 301 / 10 ∧
    (transformEventToBeatdown evC3 locC3).long = -816 / 10 ∧
    (transformEventToBeatdown evC3 locC3).eventId = 9 ∧
    (transformEventToBeatdown evC3 locC3).locationId = 5 ∧
    generateBeatdownId (transformEventToBeatdown evC3 locC3) =
      "river-city-gauntlet-monday-9" := by
  refine ⟨by decide, by decide, by decide, by decide, rfl, rfl,
    by decide, by decide, by decide⟩

/-- C4 counterexample: a soft-deleted stored record whose event
reappears with changed notes is rewritten, yet the resulting document
still carries the deleted flag: the merge write does not clear it. -/
theorem C4_revival_keeps_deleted_flag :
    lookupStore (syncFinal storeC4 [evC4] [locC4]) "r-a-monday-7" =
      some ⟨bdC4, true, true, true⟩ := by
  have hbds : toBeatdowns [evC4] [locC4] = [bdC4] := by decide
  have hlook : lookupStore storeC4 (generateBeatdownId bdC4) =
      some ⟨{ bdC4 with notes := "old" }, true, true, true⟩ := by decide
  have hne : ¬ beatdownsAreEqual
      ((⟨{ bdC4 with notes := "old" }, true, true, true⟩ : StoredDoc)).bd bdC4 :=
    fun h => absurd h.2.2.2.2.2.1 (by decide)
  have hscan : syncScan storeC4 [bdC4] =
      ⟨["r-a-monday-7"], [bdC4], 0, 1, 0⟩ := by
    unfold syncScan
    rw [List.foldl_cons, List.foldl_nil, syncStep_changed hlook hne]
    decide
  unfold syncFinal syncApplyCore syncDeleteSet
  rw [hbds, hscan]
  decide

/-- C4 amended: when the reappearing event's content differs from the
soft-deleted stored record, the pass rewrites the record fields and
sets lastUpdated, but the merge write keeps the previous deleted flag
and deletedAt instead of clearing them; when the content is equivalent
and lastUpdated is present, the stored document is left untouched. -/
theorem C4_revival_merge :
    (∀ (stored : List (String × StoredDoc)) (bd : Beatdown) (ex : StoredDoc),
      lookupStore stored (generateBeatdownId bd) = some ex →
      ¬ beatdownsAreEqual ex.bd bd →
      lookupStore (syncApplyCore stored [bd]) (generateBeatdownId bd) =
        some ⟨bd, true, ex.deleted, ex.deletedAt⟩) ∧
    (∀ (stored : List (String × StoredDoc)) (bd : Beatdown) (ex : StoredDoc),
      lookupStore stored (generateBeatdownId bd) = some ex →
      beatdownsAreEqual ex.bd bd → ex.lastUpdated = true →
      lookupStore (syncApplyCore stored [bd]) (generateBeatdownId bd) =
        some ex) := by
  constructor
  · intro stored bd ex hlook hne
    have hscan : syncScan stored [bd] =
        ⟨[generateBeatdownId bd], [bd], 0, 1, 0⟩ := by
      unfold syncScan
      rw [List.foldl_cons, List.foldl_nil, syncStep_changed hlook hne]
      rfl
    have hk : generateBeatdownId bd ∉ syncDeleteSet stored [bd] := by
      rw [syncDeleteSet_eq]
      intro hmem
      have h2 := (List.mem_filter.mp hmem).2
      rw [decide_eq_true_iff] at h2
      exact h2 (by simp)
    unfold syncApplyCore
    rw [lookupStore_applyDeletes_not_mem _ _ hk, hscan]
    show lookupStore (setMerge stored (generateBeatdownId bd) bd) _ = _
    rw [lookupStore_setMerge_self, hlook]
    rfl
  · intro stored bd ex hlook heq hlu
    have hscan : syncScan stored [bd] =
        ⟨[generateBeatdownId bd], [], 0, 0, 1⟩ := by
      unfold syncScan
      rw [List.foldl_cons, List.foldl_nil, syncStep_skip hlook heq hlu]
      rfl
    have hk : generateBeatdownId bd ∉ syncDeleteSet stored [bd] := by
      rw [syncDeleteSet_eq]
      intro hmem
      have h2 := (List.mem_filter.mp hmem).2
      rw [decide_eq_true_iff] at h2
      exact h2 (by simp)
    unfold syncApplyCore
    rw [lookupStore_applyDeletes_not_mem _ _ hk, hscan]
    show lookupStore (applyWrites stored []) _ = _
    exact hlook

/-- C4 witness: the amended merge statement at the revival scenario. -/
theorem C4_revival_merge_witness :
    lookupStore (syncApplyCore storeC4 [bdC4]) (generateBeatdownId bdC4) =
      some ⟨bdC4, true, true, true⟩ :=
  C4_revival_merge.1 storeC4 bdC4
    ⟨{ bdC4 with notes := "old" }, true, true, true⟩ (by decide)
    (fun h => absurd h.2.2.2.2.2.1 (by decide))

/-- C5: two upstream records with different event ids that share one
legacy id, stored under which a record exists, derive current-scheme
ids that differ from each other and from the legacy id, and in the
pass over the two records every write targets one of the two
current-scheme ids, never the pre-existing legacy document's id. -/
theorem C5_legacy_collision (existing : List (String × Beatdown))
    (old b1 b2 : Beatdown)
    (hstore : lookupBd existing (generateOldBeatdownId b1) = some old)
    (he : b1.eventId ≠ b2.eventId)
    (hold : generateOldBeatdownId b1 = generateOldBeatdownId b2) :
    generateBeatdownId b1 ≠ generateBeatdownId b2 ∧
    generateBeatdownId b1 ≠ generateOldBeatdownId b1 ∧
    generateBeatdownId b2 ≠ generateOldBeatdownId b1 ∧
    ∀ t ∈ scriptWriteTargets existing [b1, b2],
      t ≠ generateOldBeatdownId b1 := by
  refine ⟨genNew_ne_of_eventId_ne he hold, genNew_ne_genOld b1, ?_, ?_⟩
  · rw [hold]
    exact genNew_ne_genOld b2
  · intro t ht
    unfold scriptWriteTargets at ht
    obtain ⟨w, hw, rfl⟩ := List.mem_map.mp ht
    have hmem := scriptSync_toWrite_mem existing [b1, b2] w hw
    rcases (by simpa using hmem : w = b1 ∨ w = b2) with rfl | rfl
    · exact genNew_ne_genOld w
    · rw [hold]
      exact genNew_ne_genOld w

/-- C5 witness: the collision statement at two concrete records with
event ids 1 and 2 sharing the legacy id r-x-monday. -/
theorem C5_legacy_collision_witness :
    generateBeatdownId bdColl1 ≠ generateBeatdownId bdColl2 ∧
    generateBeatdownId bdColl1 ≠ generateOldBeatdownId bdColl1 ∧
    generateBeatdownId bdColl2 ≠ generateOldBeatdownId bdColl1 ∧
    ∀ t ∈ scriptWriteTargets [("r-x-monday", bdColl1)] [bdColl1, bdColl2],
      t ≠ generateOldBeatdownId bdColl1 :=
  C5_legacy_collision [("r-x-monday", bdColl1)] bdColl1 bdColl1 bdColl2
    (by decide) (by decide) (by decide)

/-- C6 counterexample: in the script's pass, a stored record with
identical content and no update timestamp anywhere in the model is
skipped as unchanged rather than classified as an update. -/
theorem C6_skip_without_timestamp :
    (scriptSync storeC6 [bdC6]).toWrite = [] ∧
    (scriptSync storeC6 [bdC6]).skipCount = 1 ∧
    (scriptSync storeC6 [bdC6]).updCount = 0 := by
  have hlook : lookupBd storeC6 (generateBeatdownId bdC6) = some bdC6 := by decide
  have hscan : scriptSync storeC6 [bdC6] =
      ⟨["r-y-monday-3"], [], 0, 0, 1, 0⟩ := by
    unfold scriptSync
    rw [List.foldl_cons, List.foldl_nil,
      scriptStep_found_equal hlook (beatdownsAreEqual_refl bdC6)]
    decide
  rw [hscan]
  exact ⟨rfl, rfl, rfl⟩

/-- C6 amended: in the script's pass, no match under the current id
and none under the legacy id, or a legacy match with a different event
id, classifies as an insert; a same-event legacy match or a
current-id match with differing content classifies as an update; a
current-id match with equivalent content is skipped, with no
consultation of any update timestamp.  In the scheduled function's
pass, matching is by current id only: no match inserts, differing
content or a missing lastUpdated updates, and otherwise the record is
skipped. -/
theorem C6_classification :
    (∀ (ex : List (String × Beatdown)) (bd : Beatdown),
      lookupBd ex (generateBeatdownId bd) = none →
      lookupBd ex (generateOldBeatdownId bd) = none →
      (scriptSync ex [bd]).toWrite = [bd] ∧ (scriptSync ex [bd]).newCount = 1) ∧
    (∀ (ex : List (String × Beatdown)) (bd oldBd : Beatdown),
      lookupBd ex (generateBeatdownId bd) = none →
      lookupBd ex (generateOldBeatdownId bd) = some oldBd →
      oldBd.eventId ≠ bd.eventId →
      (scriptSync ex [bd]).toWrite = [bd] ∧ (scriptSync ex [bd]).newCount = 1 ∧
        (scriptSync ex [bd]).migrated = 0) ∧
    (∀ (ex : List (String × Beatdown)) (bd oldBd : Beatdown),
      lookupBd ex (generateBeatdownId bd) = none →
      lookupBd ex (generateOldBeatdownId bd) = some oldBd →
      oldBd.eventId = bd.eventId →
      (scriptSync ex [bd]).toWrite = [bd] ∧ (scriptSync ex [bd]).updCount = 1 ∧
        (scriptSync ex [bd]).migrated = 1) ∧
    (∀ (ex : List (String × Beatdown)) (bd exBd : Beatdown),
      lookupBd ex (generateBeatdownId bd) = some exBd →
      ¬ beatdownsAreEqual exBd bd →
      (scriptSync ex [bd]).toWrite = [bd] ∧ (scriptSync ex [bd]).updCount = 1) ∧
    (∀ (ex : List (String × Beatdown)) (bd exBd : Beatdown),
      lookupBd ex (generateBeatdownId bd) = some exBd →
      beatdownsAreEqual exBd bd →
      (scriptSync ex [bd]).toWrite = [] ∧ (scriptSync ex [bd]).skipCount = 1) ∧
    (∀ (st : List (String × StoredDoc)) (bd : Beatdown),
      lookupStore st (generateBeatdownId bd) = none →
      (syncScan st [bd]).toWrite = [bd] ∧ (syncScan st [bd]).newCount = 1) ∧
    (∀ (st : List (String × StoredDoc)) (bd : Beatdown) (d : StoredDoc),
      lookupStore st (generateBeatdownId bd) = some d →
      ¬ beatdownsAreEqual d.bd bd →
      (syncScan st [bd]).toWrite = [bd] ∧ (syncScan st [bd]).updCount = 1) ∧
    (∀ (st : List (String × StoredDoc)) (bd : Beatdown) (d : StoredDoc),
      lookupStore st (generateBeatdownId bd) = some d →
      beatdownsAreEqual d.bd bd → d.lastUpdated = false →
      (syncScan st [bd]).toWrite = [bd] ∧ (syncScan st [bd]).updCount = 1) ∧
    (∀ (st : List (String × StoredDoc)) (bd : Beatdown) (d : StoredDoc),
      lookupStore st (generateBeatdownId bd) = some d →
      beatdownsAreEqual d.bd bd → d.lastUpdated = true →
      (syncScan st [bd]).toWrite = [] ∧ (syncScan st [bd]).skipCount = 1) := by
  refine ⟨?_, ?_, ?_, ?_, ?_, ?_, ?_, ?_, ?_⟩
  · intro ex bd h1 h2
    unfold scriptSync
    rw [List.foldl_cons, List.foldl_nil, scriptStep_new h1 h2]
    exact ⟨rfl, rfl⟩
  · intro ex bd oldBd h1 h2 h3
    unfold scriptSync
    rw [List.foldl_cons, List.foldl_nil, scriptStep_collision h1 h2 h3]
    exact ⟨rfl, rfl, rfl⟩
  · intro ex bd oldBd h1 h2 h3
    unfold scriptSync
    rw [List.foldl_cons, List.foldl_nil, scriptStep_migration h1 h2 h3]
    exact ⟨rfl, rfl, rfl⟩
  · intro ex bd exBd h1 h2
    unfold scriptSync
    rw [List.foldl_cons, List.foldl_nil, scriptStep_found_ne h1 h2]
    exact ⟨rfl, rfl⟩
  · intro ex bd exBd h1 h2
    unfold scriptSync
    rw [List.foldl_cons, List.foldl_nil, scriptStep_found_equal h1 h2]
    exact ⟨rfl, rfl⟩
  · intro st bd h1
    unfold syncScan
    rw [List.foldl_cons, List.foldl_nil, syncStep_none h1]
    exact ⟨rfl, rfl⟩
  · intro st bd d h1 h2
    unfold syncScan
    rw [List.foldl_cons, List.foldl_nil, syncStep_changed h1 h2]
    exact ⟨rfl, rfl⟩
  · intro st bd d h1 h2 h3
    unfold syncScan
    rw [List.foldl_cons, List.foldl_nil, syncStep_backfill h1 h2 h3]
    exact ⟨rfl, rfl⟩
  · intro st bd d h1 h2 h3
    unfold syncScan
    rw [List.foldl_cons, List.foldl_nil, syncStep_skip h1 h2 h3]
    exact ⟨rfl, rfl⟩

/-- C6 witness: the insert classification at an empty snapshot. -/
theorem C6_classification_witness :
    (scriptSync [] [bdColl1]).toWrite = [bdColl1] ∧
    (scriptSync [] [bdColl1]).newCount = 1 :=
  C6_classification.1 [] bdColl1 (by decide) (by decide)

/-- C7: the tolerant coordinate comparison accepts any two pairs whose
axes each differ by at most five hundred-thousandths of a degree,
accepts any two pairs whose planar approximate distance is under ten
meters, and rejects any two pairs whose latitudes differ by one
degree. -/
theorem C7_coordinate_tolerance :
    (∀ lat1 long1 lat2 long2 : ℚ, |lat1 - lat2| ≤ 5 / 100000 →
      |long1 - long2| ≤ 5 / 100000 →
      coordinatesAreEqual lat1 long1 lat2 long2) ∧
    (∀ lat1 long1 lat2 long2 : ℚ,
      planarDistance lat1 long1 lat2 long2 < 10 →
      coordinatesAreEqual lat1 long1 lat2 long2) ∧
    (∀ lat1 long1 lat2 long2 : ℚ, |lat1 - lat2| = 1 →
      ¬ coordinatesAreEqual lat1 long1 lat2 long2) := by
  refine ⟨?_, ?_, ?_⟩
  · intro a b c d h1 h2
    exact Or.inr (planarDistance_small h1 h2)
  · intro a b c d h
    exact Or.inr h
  · intro a b c d h hcon
    rcases hcon with ⟨hla, _⟩ | hdist
    · exact normalizeValueNum_ne_of_abs_one h hla
    · exact planarDistance_not_small h hdist

/-- C7 witness: the three tolerance statements at concrete
coordinates. -/
theorem C7_coordinate_tolerance_witness :
    coordinatesAreEqual 0 0 (5 / 100000) (5 / 100000) ∧
    coordinatesAreEqual 0 0 0 (1 / 1000000) ∧
    ¬ coordinatesAreEqual 30 0 31 0 := by
  refine ⟨?_, ?_, ?_⟩
  · exact C7_coordinate_tolerance.1 0 0 (5 / 100000) (5 / 100000)
      (by rw [abs_le]; constructor <;> norm_num)
      (by rw [abs_le]; constructor <;> norm_num)
  · refine C7_coordinate_tolerance.2.1 0 0 0 (1 / 1000000) ?_
    unfold planarDistance
    rw [Real.sqrt_lt' (by norm_num : (0:ℝ) < 10)]
    norm_num [Real.cos_zero, abs_of_nonneg]
  · exact C7_coordinate_tolerance.2.2 30 0 31 0 (by norm_num)

/-- C8 counterexample: on a record whose name holds two adjacent
spaces, the legacy derivation of the code yields two hyphens where the
claim's run-replacement wording yields one, so the two derivations
disagree. -/
theorem C8_legacy_run_mismatch :
    generateOldBeatdownId bdRun ≠ specLegacyId bdRun := by decide

/-- C8 amended: the current-scheme derivation agrees with the claim's
run-replacement wording, because the collapse pass makes per-character
and per-run replacement coincide; the legacy derivation replaces each
disallowed character by its own hyphen and agrees with the
run-replacement wording only when no two adjacent characters of the
lowercased concatenation are both disallowed. -/
theorem C8_id_derivation :
    (∀ bd : Beatdown, generateBeatdownId bd = specCurrentId bd) ∧
    (∀ bd : Beatdown,
      noAdjacentBad (((bd.region ++ "_" ++ bd.name ++ "_" ++
        bd.dayOfWeek).data).map Char.toLower) →
      generateOldBeatdownId bd = specLegacyId bd) := by
  constructor
  · intro bd
    unfold generateBeatdownId specCurrentId
    exact congrArg String.mk (collapseStrip_map_replaceRuns _)
  · intro bd h
    unfold generateOldBeatdownId specLegacyId
    exact congrArg String.mk (map_sanChar_replaceRuns_of_noAdjacent _ h)

/-- C8 witness: the conditional legacy agreement at a record whose
lowercased concatenation has no adjacent disallowed characters. -/
theorem C8_id_derivation_witness :
    generateOldBeatdownId bdColl1 = specLegacyId bdColl1 :=
  C8_id_derivation.2 bdColl1 (by
    unfold noAdjacentBad
    rw [show (List.map Char.toLower (bdColl1.region ++ "_" ++ bdColl1.name ++
        "_" ++ bdColl1.dayOfWeek).data) =
      ['r', '_', 'x', '_', 'm', 'o', 'n', 'd', 'a', 'y'] from by decide]
    simp only [List.chain'_cons, List.chain'_singleton, and_true]
    decide)

/-- C9: the current-scheme id depends only on region, name, day of
week and event id, so two records agreeing on those four fields share
one id regardless of every other field, and re-deriving over the same
normalized pair is deterministic. -/
theorem C9_id_four_fields :
    (∀ b1 b2 : Beatdown, b1.region = b2.region → b1.name = b2.name →
      b1.dayOfWeek = b2.dayOfWeek → b1.eventId = b2.eventId →
      generateBeatdownId b1 = generateBeatdownId b2) ∧
    (∀ (e : ApiEvent) (l : ApiLocation),
      generateBeatdownId (transformEventToBeatdown e l) =
        generateBeatdownId (transformEventToBeatdown e l)) := by
  constructor
  · intro b1 b2 hr hn hd he
    unfold generateBeatdownId
    rw [hr, hn, hd, he]
  · intro e l
    rfl

/-- C9 witness: two records differing in time, type, website, notes,
address, coordinates and location id but agreeing on the four id
fields share one derived id. -/
theorem C9_id_four_fields_witness :
    generateBeatdownId bdId1 = generateBeatdownId bdId2 :=
  C9_id_four_fields.1 bdId1 bdId2 rfl rfl rfl rfl

/-- C10 counterexample: a location-scoped update for location 5 writes
under an id occupied by a stored document whose locationId field is
99, so a stored document of another location is modified. -/
theorem C10_foreign_location_write :
    "r-a-monday-7" ∈ (updateLocationWrites locC10 [evC10] 5).map
      (fun p => p.1) ∧
    lookupStore storeC10 "r-a-monday-7" = some ⟨bdOld99, true, false, false⟩ ∧
    bdOld99.locationId ≠ 5 := by
  refine ⟨?_, ?_, ?_⟩ <;> decide

/-- C10 amended: every document written by the location-scoped update
derives from an event referencing that location, every document it
soft-deletes was returned by the location-scoped query, and the
event-scoped update writes only records carrying the fetched event's
id and soft-deletes only the recomputed id of the queried record of
that event id or documents returned by the event-scoped query; a
stored document of a different location can still be overwritten when
its id coincides with a derived id. -/
theorem C10_webhook_frame :
    (∀ (loc : ApiLocation) (events : List ApiEvent) (lid : ℕ)
      (w : String × Beatdown), w ∈ updateLocationWrites loc events lid →
      ∃ e, e ∈ events ∧ e.locationId = lid ∧
        w = (generateBeatdownId (transformToBeatdown loc e),
          transformToBeatdown loc e)) ∧
    (∀ (store : List (String × StoredDoc)) (loc : ApiLocation)
      (events : List ApiEvent) (lid : ℕ) (id : String),
      id ∈ updateLocationDeletes store loc events lid →
      ∃ d, (id, d) ∈ store ∧ d.bd.locationId = lid) ∧
    (∀ (store : List (String × StoredDoc)) (eid : ℕ) (ev : ApiEvent)
      (loc : ApiLocation) (w : String × Beatdown),
      w ∈ (updateEventOutcome store eid ev loc).1 → w.2.eventId = ev.id) ∧
    (∀ (store : List (String × StoredDoc)) (eid : ℕ) (ev : ApiEvent)
      (loc : ApiLocation) (id : String),
      id ∈ (updateEventOutcome store eid ev loc).2 →
      (∃ p, p ∈ store ∧ p.2.bd.eventId = eid ∧
        id = generateBeatdownId p.2.bd) ∨
      (∃ p, p ∈ store ∧ p.1 = id ∧ p.2.bd.eventId = eid)) := by
  refine ⟨?_, ?_, ?_, ?_⟩
  · intro loc events lid w hw
    unfold updateLocationWrites at hw
    obtain ⟨e, he, rfl⟩ := List.mem_map.mp hw
    obtain ⟨hmem, hlid⟩ := List.mem_filter.mp he
    exact ⟨e, hmem, by simpa using hlid, rfl⟩
  · intro store loc events lid id hid
    unfold updateLocationDeletes at hid
    have h1 := (List.mem_filter.mp hid).1
    obtain ⟨p, hp, rfl⟩ := List.mem_map.mp h1
    obtain ⟨hmem, hlid⟩ := List.mem_filter.mp hp
    exact ⟨p.2, by simpa using hmem, by simpa using hlid⟩
  · intro store eid ev loc w hw
    unfold updateEventOutcome at hw
    rcases hfind : store.find? (fun p => p.2.bd.eventId = eid) with _ | pr
    · rw [hfind] at hw
      simp at hw
    · rw [hfind] at hw
      dsimp only at hw
      by_cases hact : ev.isActive = true
      · rw [if_pos hact] at hw
        have hweq : w = (generateBeatdownId (transformToBeatdown loc ev),
            transformToBeatdown loc ev) := by simpa using hw
        rw [hweq]
        rfl
      · rw [if_neg hact] at hw
        simp at hw
  · intro store eid ev loc id hid
    unfold updateEventOutcome at hid
    rcases hfind : store.find? (fun p => p.2.bd.eventId = eid) with _ | pr
    · rw [hfind] at hid
      simp at hid
    · rw [hfind] at hid
      dsimp only at hid
      have hpr : pr ∈ store ∧ pr.2.bd.eventId = eid := by
        refine ⟨List.mem_of_find?_eq_some hfind, ?_⟩
        have := List.find?_some hfind
        simpa using this
      by_cases hact : ev.isActive = true
      · rw [if_pos hact] at hid
        by_cases hsame : generateBeatdownId pr.2.bd =
            generateBeatdownId (transformToBeatdown loc ev)
        · rw [if_pos hsame] at hid
          simp at hid
        · rw [if_neg hsame] at hid
          have : id = generateBeatdownId pr.2.bd := by simpa using hid
          exact Or.inl ⟨pr, hpr.1, hpr.2, this⟩
      · rw [if_neg hact] at hid
        obtain ⟨p, hp, rfl⟩ := List.mem_map.mp hid
        obtain ⟨hmem, heid⟩ := List.mem_filter.mp hp
        exact Or.inr ⟨p, hmem, rfl, by simpa using heid⟩

/-- C10 witness: the location-scoped write characterization at the
frame scenario. -/
theorem C10_webhook_frame_witness :
    ∃ e, e ∈ [evC10] ∧ e.locationId = 5 ∧
      ("r-a-monday-7", transformToBeatdown locC10 evC10) =
        (generateBeatdownId (transformToBeatdown locC10 e),
          transformToBeatdown locC10 e) :=
  C10_webhook_frame.1 locC10 [evC10] 5
    ("r-a-monday-7", transformToBeatdown locC10 evC10) (by decide)

end F3
